import Mathlib

/-!
Verification of the Figma-Context-MCP extraction and image pipeline.

A shallow embedding, in Lean 4, of the parts of the repository that the
specification's claims are about:

* `src/utils/common.ts` — `generateVarId`, `generateCSSShorthand`;
* the extractor helper `findOrCreateVar` (src/extractors);
* `src/transformers/style.ts` — `parsePaint`, `convertColor`,
  `formatRGBAColor`, and the gradient geometry (`mapLinearGradient`,
  `findExtendedLineIntersections`, `convertGradientToCss`);
* `src/utils/image-processing.ts` — `downloadAndProcessImage` and
  `applyCropTransform`;
* `src/services/figma.ts` — `FigmaService.downloadImages`;
* `src/mcp/tools/download-figma-images-tool.ts` — the deduplication and
  alias-reporting logic of `downloadFigmaImages`;
* the traversal engine (node-walker), whose implementation is not in the
  source tree and is therefore modelled from the spec where needed.

Modelling conventions:

* JavaScript numbers are modelled as exact rationals `JsNumber`
  (an integer numerator over a positive integer denominator, kept
  unreduced so that every operation is plain integer arithmetic and
  kernel-computable).  JS `Math.round` is `⌊x + 1/2⌋` (JS rounds half
  toward +∞); 32-bit bitwise operations wrap with an explicit `% 2^32`.
* `Math.atan2(y, x) * (180 / Math.PI)` is transcendental and is passed in
  as an explicit function argument `att` wherever the source uses it.
* `JSON.stringify`-equality of style values is modelled as decidable
  structural equality; `Math.random()` draws are modelled by explicit
  draw-supply arguments.
* Promises are modelled by `Except`: a rejected promise is `.error`, and
  `Promise.all` is fail-fast.  Network and filesystem effects are supplied
  by explicit environment records.
-/

/-- An exact rational modelling a JS number.  The denominator is positive
for every value the embedding constructs. -/
structure JsNumber where
  num : ℤ
  den : ℤ
deriving Repr, DecidableEq

namespace JsNumber

def ofInt (n : ℤ) : JsNumber := ⟨n, 1⟩

instance : OfNat JsNumber n := ⟨ofInt n⟩

protected def add (a b : JsNumber) : JsNumber :=
  ⟨a.num * b.den + b.num * a.den, a.den * b.den⟩

protected def sub (a b : JsNumber) : JsNumber :=
  ⟨a.num * b.den - b.num * a.den, a.den * b.den⟩

protected def mul (a b : JsNumber) : JsNumber :=
  ⟨a.num * b.num, a.den * b.den⟩

protected def neg (a : JsNumber) : JsNumber := ⟨-a.num, a.den⟩

protected def div (a b : JsNumber) : JsNumber :=
  let n := a.num * b.den
  let d := a.den * b.num
  if d < 0 then ⟨-n, -d⟩ else ⟨n, d⟩

instance : Add JsNumber := ⟨JsNumber.add⟩
instance : Sub JsNumber := ⟨JsNumber.sub⟩
instance : Mul JsNumber := ⟨JsNumber.mul⟩
instance : Neg JsNumber := ⟨JsNumber.neg⟩
instance : Div JsNumber := ⟨JsNumber.div⟩

protected def le (a b : JsNumber) : Prop := a.num * b.den ≤ b.num * a.den

protected def lt (a b : JsNumber) : Prop := a.num * b.den < b.num * a.den

instance : LE JsNumber := ⟨JsNumber.le⟩

instance : LT JsNumber := ⟨JsNumber.lt⟩

instance (a b : JsNumber) : Decidable (a ≤ b) :=
  inferInstanceAs (Decidable (a.num * b.den ≤ b.num * a.den))

instance (a b : JsNumber) : Decidable (a < b) :=
  inferInstanceAs (Decidable (a.num * b.den < b.num * a.den))

/-- JS `===` on numbers: equality of the represented rationals. -/
def eqv (a b : JsNumber) : Prop := a.num * b.den = b.num * a.den

instance (a b : JsNumber) : Decidable (eqv a b) :=
  inferInstanceAs (Decidable (a.num * b.den = b.num * a.den))

/-- JS `Math.abs`. -/
def abs (a : JsNumber) : JsNumber := ⟨|a.num|, a.den⟩

/-- JS `Math.floor` (the denominator is positive, so flooring division). -/
def floor (a : JsNumber) : ℤ := Int.fdiv a.num a.den

/-- JS `Math.min` on two numbers. -/
def minJ (a b : JsNumber) : JsNumber := if a ≤ b then a else b

/-- JS `Math.max` on two numbers. -/
def maxJ (a b : JsNumber) : JsNumber := if a ≤ b then b else a

end JsNumber

/-- JS `Math.round`: rounds half toward positive infinity. -/
def jsRound (q : JsNumber) : ℤ := Int.fdiv (2 * q.num + q.den) (2 * q.den)

/-- JS 32-bit wrap-around (`ToInt32`): reduce an integer into `[-2^31, 2^31)`. -/
def asInt32 (n : ℤ) : ℤ := (n + 2 ^ 31) % 2 ^ 32 - 2 ^ 31

/-- JS `a << k` on 32-bit integers: both the input and the result are wrapped. -/
def jsShl (a : ℤ) (k : ℕ) : ℤ := asInt32 (asInt32 a * 2 ^ k)

/-- Decimal digits of the fraction `r / d` (`0 ≤ r < d`), `k` of them. -/
def fracDigitsNat : ℕ → ℕ → ℕ → List ℕ
  | 0, _, _ => []
  | k + 1, r, d => (r * 10 / d) :: fracDigitsNat k (r * 10 % d) d

/-- Drop the trailing zeros of a digit list. -/
def stripTrailingZeros (l : List ℕ) : List ℕ :=
  (l.reverse.dropWhile (· = 0)).reverse

/-- JS `Number.prototype.toString` (base 10) / template interpolation of a
number: exact for every number with at most 20 decimal places, which covers
every number the embedded program ever prints. -/
def decStr (q : JsNumber) : String :=
  let sgn := if q.num < 0 then "-" else ""
  let n := q.num.natAbs
  let d := q.den.toNat
  let ds := stripTrailingZeros (fracDigitsNat 20 (n % d) d)
  sgn ++ toString (n / d) ++
    (if ds.isEmpty then "" else "." ++ String.mk (ds.map Nat.digitChar))

/-- JS template interpolation of an integer-valued number. -/
def intStr (n : ℤ) : String := toString n

/-- JS `Number.prototype.toString(16)` on an integer: lowercase hex digits,
a leading `-` for negative values. -/
def jsToString16 (n : ℤ) : String :=
  if n < 0 then "-" ++ String.mk (Nat.toDigits 16 n.natAbs)
  else String.mk (Nat.toDigits 16 n.toNat)

/-- JS `String.prototype.toUpperCase` (everything produced here is ASCII). -/
def jsToUpperCase (s : String) : String := String.mk (s.toList.map Char.toUpper)

/-- JS `String.prototype.includes` (substring test). -/
def jsIncludes (s sub : String) : Bool :=
  if sub = "" then true else (s.splitOn sub).length ≥ 2

/-- JS truthiness of an optional string (`undefined` and `""` are falsy). -/
def strTruthy (o : Option String) : Option String :=
  match o with
  | some s => if s = "" then none else some s
  | none => none

/-!
Section: `src/utils/common.ts`
-/

/-- The character set of `generateVarId`:
`"ABCDEFGHIJKLMNOPQRSTUVWXYZ0123456789"`. -/
def varIdChars : List Char := "ABCDEFGHIJKLMNOPQRSTUVWXYZ0123456789".toList

theorem varIdChars_length : varIdChars.length = 36 := rfl

/-- Model of `generateVarId(prefix)` from `src/utils/common.ts`.  The six calls to
`Math.floor(Math.random() * chars.length)` (each yielding an index in
`0..35`) are modelled by the explicit draw function `draws`.  The function
consults nothing but its prefix and its random draws — in particular no
registry of already-generated ids. -/
def generateVarId (pfx : String) (draws : Fin 6 → Fin 36) : String :=
  pfx ++ "_" ++ String.mk (List.ofFn fun i : Fin 6 =>
    varIdChars.get (Fin.cast varIdChars_length.symm (draws i)))

/-- The record `{top, right, bottom, left}` consumed by `generateCSSShorthand`. -/
structure EdgeValues where
  top : JsNumber
  right : JsNumber
  bottom : JsNumber
  left : JsNumber

/-- Model of `generateCSSShorthand(values, {ignoreZero, suffix})` from
`src/utils/common.ts`; `none` models the `undefined` return.  The numeric
`===` comparisons of the source are value comparisons (`JsNumber.eqv`).
The option-bag defaults are `ignoreZero = true`, `suffix = "px"`. -/
def generateCSSShorthand (v : EdgeValues) (ignoreZero : Bool) (sfx : String) :
    Option String :=
  if ignoreZero ∧ JsNumber.eqv v.top 0 ∧ JsNumber.eqv v.right 0 ∧
      JsNumber.eqv v.bottom 0 ∧ JsNumber.eqv v.left 0 then
    none
  else if JsNumber.eqv v.top v.right ∧ JsNumber.eqv v.right v.bottom ∧
      JsNumber.eqv v.bottom v.left then
    some (decStr v.top ++ sfx)
  else if JsNumber.eqv v.right v.left then
    if JsNumber.eqv v.top v.bottom then
      some (decStr v.top ++ sfx ++ " " ++ decStr v.right ++ sfx)
    else
      some (decStr v.top ++ sfx ++ " " ++ decStr v.right ++ sfx ++ " " ++
        decStr v.bottom ++ sfx)
  else
    some (decStr v.top ++ sfx ++ " " ++ decStr v.right ++ sfx ++ " " ++
      decStr v.bottom ++ sfx ++ " " ++ decStr v.left ++ sfx)

/-- Specialization of `generateCSSShorthand` with the option-bag defaults
(`ignoreZero = true`, `suffix = "px"`). -/
def generateCSSShorthandDefault (v : EdgeValues) : Option String :=
  generateCSSShorthand v true "px"

/-!
Section: The registry helper `findOrCreateVar` (src/extractors/...)

`globalVars.styles` is a plain JS object used as an insertion-ordered map
(the generated keys are never array indices, so `Object.entries` yields
insertion order).  `JSON.stringify(a) === JSON.stringify(b)` on computed
style values is deep structural equality, modelled by `DecidableEq`.
-/

/-- JS `obj[k] = v` / `Map.prototype.set` on an insertion-ordered map:
overwrite in place when the key exists, append otherwise. -/
def objSet {V : Type} (m : List (String × V)) (k : String) (v : V) :
    List (String × V) :=
  if m.any (fun p => p.1 == k) then
    m.map (fun p => if p.1 == k then (k, v) else p)
  else m ++ [(k, v)]

/-- JS `Map.prototype.get` / first-match lookup by key. -/
def mapGet {V : Type} (m : List (String × V)) (k : String) : Option V :=
  (m.find? (fun p => p.1 == k)).map (·.2)

/-- The registry during one traversal: `styles` models `globalVars.styles`
(insertion-ordered), `used` counts how many ids `generateVarId` has
produced so far (it indexes the random-draw supply). -/
structure RegState (V : Type) where
  styles : List (String × V)
  used : ℕ
deriving Repr

/-- Model of `findOrCreateVar(globalVars, value, prefix)` from the extractors module:
scan `Object.entries(globalVars.styles)` for a value with equal canonical
serialization; on a hit return the existing id unchanged, on a miss
generate a fresh id with `generateVarId(prefix)` (consuming one block of
random draws from `supply`) and store the value under it. -/
def findOrCreateVar {V : Type} [DecidableEq V] (supply : ℕ → Fin 6 → Fin 36)
    (s : RegState V) (value : V) (pfx : String) : String × RegState V :=
  match s.styles.find? (fun p => decide (p.2 = value)) with
  | some p => (p.1, s)
  | none =>
    let varId := generateVarId pfx (supply s.used)
    (varId, ⟨objSet s.styles varId value, s.used + 1⟩)

/-- The registry a top-level extraction starts from.  Modelled from the
spec: the traversal entry point (node-walker) is not in the source tree;
the spec states the registry is "rebuilt fresh per top-level call — never a
cross-request cache". -/
def emptyRegState (V : Type) : RegState V := ⟨[], 0⟩

/-- A sequence of `findOrCreateVar` calls as they occur during one
traversal: each element is the (computed style value, kind prefix) pair of
one call; returns the ids handed back, in call order, and the final
registry. -/
def runFindOrCreate {V : Type} [DecidableEq V] (supply : ℕ → Fin 6 → Fin 36) :
    List (V × String) → RegState V → List String × RegState V
  | [], s => ([], s)
  | (v, p) :: rest, s =>
    let r1 := findOrCreateVar supply s v p
    let r2 := runFindOrCreate supply rest r1.2
    (r1.1 :: r2.1, r2.2)

/-- One call is collision-free: either it is a hit, or the id
`generateVarId` is about to produce is not yet a key of the registry. -/
def stepFresh {V : Type} [DecidableEq V] (supply : ℕ → Fin 6 → Fin 36)
    (s : RegState V) (value : V) (pfx : String) : Bool :=
  match s.styles.find? (fun p => decide (p.2 = value)) with
  | some _ => true
  | none => !(s.styles.any (fun p => p.1 == generateVarId pfx (supply s.used)))

/-- A whole call sequence is collision-free: every id generated along the
run differs from all keys present when it is generated. -/
def runFresh {V : Type} [DecidableEq V] (supply : ℕ → Fin 6 → Fin 36) :
    List (V × String) → RegState V → Bool
  | [], _ => true
  | (v, p) :: rest, s =>
    stepFresh supply s v p && runFresh supply rest (findOrCreateVar supply s v p).2

/-!
Section: `src/transformers/style.ts`
-/

/-- Figma RGBA color: channels and alpha in `[0,1]`. -/
structure RGBA where
  r : JsNumber
  g : JsNumber
  b : JsNumber
  a : JsNumber
deriving Repr, DecidableEq

/-- A 2-D point (gradient handle) in node-local coordinates. -/
structure Vec2 where
  x : JsNumber
  y : JsNumber
deriving Repr, DecidableEq

/-- One gradient stop. -/
structure ColorStop where
  position : JsNumber
  color : RGBA
deriving Repr, DecidableEq

/-- Figma 2×3 transform matrix, as the nested number array the API sends
(`[[scaleX, skewX, translateX], [skewY, scaleY, translateY]]`). -/
def FigTransform : Type := List (List JsNumber)

instance : DecidableEq FigTransform := inferInstanceAs (DecidableEq (List (List JsNumber)))

instance : Repr FigTransform := inferInstanceAs (Repr (List (List JsNumber)))

/-- Accessor modelling `transform[i]?.[j] ?? dflt`. -/
def tGet (t : FigTransform) (i j : ℕ) (dflt : JsNumber) : JsNumber :=
  ((t.getD i []).getD j dflt)

/-- A raw Figma paint.  The source dispatches on the string `raw.type` and
reads type-specific fields; fields a paint kind does not carry are `none`
(JS `undefined`).  `imageRef` and `sourceNodeId` are required by the API
for IMAGE and PATTERN paints respectively. -/
structure Paint where
  type : String
  color : Option RGBA
  opacity : Option JsNumber
  imageRef : String
  scaleMode : String
  scalingFactor : Option JsNumber
  imageTransform : Option FigTransform
  gradientHandlePositions : Option (List Vec2)
  gradientStops : List ColorStop
  sourceNodeId : String
  horizontalAlignment : String
  verticalAlignment : String

/-- A paint with every field empty, used as the base of record updates. -/
def Paint.base : Paint := ⟨"", none, none, "", "", none, none, none, [], "", "", ""⟩

/-- The processing metadata of a simplified image fill
(`imageDownloadArguments`). -/
structure ImageDownloadArguments where
  needsCropping : Bool
  requiresImageDimensions : Bool
  cropTransform : Option FigTransform
  filenameSuffix : Option String
deriving Repr, DecidableEq

/-- A simplified image fill (CSS fields are optional; which are set depends
on the scale mode and background/img usage). -/
structure SimplifiedImageFill where
  imageRef : String
  scaleMode : String
  scalingFactor : Option JsNumber
  backgroundSize : Option String
  backgroundRepeat : Option String
  isBackground : Option Bool
  objectFit : Option String
  imageDownloadArguments : ImageDownloadArguments
deriving Repr, DecidableEq

/-- A simplified pattern fill (`patternSource.type` is always
`"IMAGE-PNG"`, so only the node id is kept). -/
structure SimplifiedPatternFill where
  nodeId : String
  backgroundRepeat : String
  backgroundSize : String
  backgroundPosition : String
deriving Repr, DecidableEq

/-- Type `SimplifiedFill`: a CSS hex string, a CSS rgba string, an image fill, a
gradient descriptor, or a pattern descriptor. -/
inductive SimplifiedFill where
  | hex (s : String)
  | rgba (s : String)
  | image (f : SimplifiedImageFill)
  | gradient (type : String) (gradient : String)
  | pattern (f : SimplifiedPatternFill)
deriving Repr, DecidableEq

/-- Result of `convertColor`. -/
structure ColorValue where
  hex : String
  opacity : JsNumber
deriving DecidableEq

/-- Model of `convertColor(color, opacity = 1)`: rounds the channels to `0..255`,
combines paint opacity with the alpha channel as
`Math.round(opacity * color.a * 100) / 100`, and renders
`("#" + ((1 << 24) + (r << 16) + (g << 8) + b).toString(16).slice(1).toUpperCase())`. -/
def convertColor (color : RGBA) (opacity : JsNumber) : ColorValue :=
  let r := jsRound (color.r * 255)
  let g := jsRound (color.g * 255)
  let b := jsRound (color.b * 255)
  let a := JsNumber.ofInt (jsRound (opacity * color.a * 100)) / 100
  let hex := "#" ++ jsToUpperCase
    ((jsToString16 (jsShl 1 24 + jsShl r 16 + jsShl g 8 + b)).drop 1)
  ⟨hex, a⟩

/-- Model of `formatRGBAColor(color, opacity = 1)`: the CSS
`rgba(r, g, b, a)` string with
`a = Math.round(opacity * color.a * 100) / 100`. -/
def formatRGBAColor (color : RGBA) (opacity : JsNumber) : String :=
  let r := jsRound (color.r * 255)
  let g := jsRound (color.g * 255)
  let b := jsRound (color.b * 255)
  let a := JsNumber.ofInt (jsRound (opacity * color.a * 100)) / 100
  "rgba(" ++ intStr r ++ ", " ++ intStr g ++ ", " ++ intStr b ++ ", " ++
    decStr a ++ ")"

/-- The literal (un-reparameterized) stop list used by the fallback paths:
each stop is `formatRGBAColor(color, 1)` plus `Math.round(position * 100)` %. -/
def formatStopsLiteral (stops : List ColorStop) : String :=
  String.intercalate ", " (stops.map fun s =>
    formatRGBAColor s.color 1 ++ " " ++ intStr (jsRound (s.position * 100)) ++ "%")

/-- The `1e-10` tolerance of the intersection code. -/
def eps10 : JsNumber := ⟨1, 10 ^ 10⟩

/-- Keep the first occurrence of each value (JS `new Set(...)` on numbers). -/
def dedupEqv (l : List JsNumber) : List JsNumber :=
  l.foldl (fun acc x =>
    if acc.any (fun y => decide (JsNumber.eqv y x)) then acc else acc ++ [x]) []

/-- Insert into an ascending list (used to model the numeric array sort). -/
def insertAsc (x : JsNumber) : List JsNumber → List JsNumber
  | [] => [x]
  | y :: ys => if x ≤ y then x :: y :: ys else y :: insertAsc x ys

/-- Ascending numeric sort (`.sort((a, b) => a - b)`). -/
def sortAsc (l : List JsNumber) : List JsNumber := l.foldr insertAsc []

/-- Model of `findExtendedLineIntersections(start, end)` from `style.ts`: the line
parameters `t` at which the infinite handle line meets each edge of the
unit square (only when the hit point lies on the edge segment), rounded to
`1e-6`, deduplicated, and sorted ascending. -/
def findExtendedLineIntersections (start fin : Vec2) : List JsNumber :=
  let dx := fin.x - start.x
  let dy := fin.y - start.y
  if JsNumber.abs dx < eps10 ∧ JsNumber.abs dy < eps10 then []
  else
    let top :=
      if eps10 < JsNumber.abs dy then
        let t := (-start.y) / dy
        let x := start.x + t * dx
        if 0 ≤ x ∧ x ≤ 1 then [t] else []
      else []
    let bottom :=
      if eps10 < JsNumber.abs dy then
        let t := (1 - start.y) / dy
        let x := start.x + t * dx
        if 0 ≤ x ∧ x ≤ 1 then [t] else []
      else []
    let left :=
      if eps10 < JsNumber.abs dx then
        let t := (-start.x) / dx
        let y := start.y + t * dy
        if 0 ≤ y ∧ y ≤ 1 then [t] else []
      else []
    let right :=
      if eps10 < JsNumber.abs dx then
        let t := (1 - start.x) / dx
        let y := start.y + t * dy
        if 0 ≤ y ∧ y ≤ 1 then [t] else []
      else []
    sortAsc (dedupEqv ((top ++ bottom ++ left ++ right).map fun t =>
      JsNumber.ofInt (jsRound (t * 1000000)) / 1000000))

/-- The `{stops, cssGeometry}` pair the gradient mappers produce. -/
structure GradientParts where
  stops : String
  cssGeometry : String
deriving DecidableEq

/-- Model of `mapLinearGradient(gradientStops, start, end, elementBounds)`:
`att dy dx` stands for `Math.atan2(dy, dx) * (180 / Math.PI)`.
`gradientLength === 0` is equivalent to `dx*dx + dy*dy = 0` (the square
root of a nonnegative number is zero exactly on zero).  `elementBounds` is
never read by the source body and is omitted. -/
def mapLinearGradient (att : JsNumber → JsNumber → JsNumber)
    (gradientStops : List ColorStop) (start fin : Vec2) : GradientParts :=
  let dx := fin.x - start.x
  let dy := fin.y - start.y
  if JsNumber.eqv (dx * dx + dy * dy) 0 then
    ⟨formatStopsLiteral gradientStops, "0deg"⟩
  else
    let angle := att dy dx + 90
    let ints := findExtendedLineIntersections start fin
    if 2 ≤ ints.length then
      let fullLineStart := JsNumber.minJ (ints.getD 0 0) (ints.getD 1 0)
      let fullLineEnd := JsNumber.maxJ (ints.getD 0 0) (ints.getD 1 0)
      let mapped := gradientStops.map fun s =>
        let extendedPosition := (s.position - fullLineStart) / (fullLineEnd - fullLineStart)
        let clamped := JsNumber.maxJ 0 (JsNumber.minJ 1 extendedPosition)
        formatRGBAColor s.color 1 ++ " " ++ intStr (jsRound (clamped * 100)) ++ "%"
      ⟨String.intercalate ", " mapped, intStr (jsRound angle) ++ "deg"⟩
    else
      ⟨formatStopsLiteral gradientStops, intStr (jsRound angle) ++ "deg"⟩

/-- Model of `mapRadialGradient`: center handle to a `%` position; stop positions
stay literal.  The third handle and the bounds are never read. -/
def mapRadialGradient (gradientStops : List ColorStop) (center : Vec2) :
    GradientParts :=
  ⟨formatStopsLiteral gradientStops,
    "circle at " ++ intStr (jsRound (center.x * 100)) ++ "% " ++
      intStr (jsRound (center.y * 100)) ++ "%"⟩

/-- Model of `mapAngularGradient`: center to `%` position, start angle from the
second handle. -/
def mapAngularGradient (att : JsNumber → JsNumber → JsNumber)
    (gradientStops : List ColorStop) (center angleHandle : Vec2) :
    GradientParts :=
  let angle := att (angleHandle.y - center.y) (angleHandle.x - center.x) + 90
  ⟨formatStopsLiteral gradientStops,
    "from " ++ intStr (jsRound angle) ++ "deg at " ++
      intStr (jsRound (center.x * 100)) ++ "% " ++
      intStr (jsRound (center.y * 100)) ++ "%"⟩

/-- Model of `mapDiamondGradient`: approximated with an ellipse at the center. -/
def mapDiamondGradient (gradientStops : List ColorStop) (center : Vec2) :
    GradientParts :=
  ⟨formatStopsLiteral gradientStops,
    "ellipse at " ++ intStr (jsRound (center.x * 100)) ++ "% " ++
      intStr (jsRound (center.y * 100)) ++ "%"⟩

/-- Model of `mapGradientStops(gradient)`: dispatch on the gradient kind; fewer than
two handles falls back to literal stops at `0deg`.  The third destructured
handle is never read by any branch, so its absence cannot fault. -/
def mapGradientStops (att : JsNumber → JsNumber → JsNumber) (g : Paint) :
    GradientParts :=
  match g.gradientHandlePositions with
  | none => ⟨formatStopsLiteral g.gradientStops, "0deg"⟩
  | some handles =>
    if handles.length < 2 then ⟨formatStopsLiteral g.gradientStops, "0deg"⟩
    else
      let handle1 := handles.getD 0 ⟨0, 0⟩
      let handle2 := handles.getD 1 ⟨0, 0⟩
      if g.type = "GRADIENT_LINEAR" then
        mapLinearGradient att g.gradientStops handle1 handle2
      else if g.type = "GRADIENT_RADIAL" then
        mapRadialGradient g.gradientStops handle1
      else if g.type = "GRADIENT_ANGULAR" then
        mapAngularGradient att g.gradientStops handle1 handle2
      else if g.type = "GRADIENT_DIAMOND" then
        mapDiamondGradient g.gradientStops handle1
      else ⟨formatStopsLiteral g.gradientStops, "0deg"⟩

/-- Stable insertion into a stop list sorted by position
(`.sort((a, b) => a.position - b.position)`, stable in JS). -/
def insertStop (x : ColorStop) : List ColorStop → List ColorStop
  | [] => [x]
  | y :: ys => if x.position ≤ y.position then x :: y :: ys else y :: insertStop x ys

/-- Stable sort of gradient stops by position. -/
def sortStops (l : List ColorStop) : List ColorStop := l.foldr insertStop []

/-- Model of `convertGradientToCss(gradient)`: sort the stops by position, map them
through the handle geometry, wrap in the CSS function for the kind. -/
def convertGradientToCss (att : JsNumber → JsNumber → JsNumber) (g : Paint) :
    String :=
  let sortedG := { g with gradientStops := sortStops g.gradientStops }
  let parts := mapGradientStops att sortedG
  if g.type = "GRADIENT_LINEAR" then
    "linear-gradient(" ++ parts.cssGeometry ++ ", " ++ parts.stops ++ ")"
  else if g.type = "GRADIENT_RADIAL" then
    "radial-gradient(" ++ parts.cssGeometry ++ ", " ++ parts.stops ++ ")"
  else if g.type = "GRADIENT_ANGULAR" then
    "conic-gradient(" ++ parts.cssGeometry ++ ", " ++ parts.stops ++ ")"
  else if g.type = "GRADIENT_DIAMOND" then
    "radial-gradient(" ++ parts.cssGeometry ++ ", " ++ parts.stops ++ ")"
  else "linear-gradient(0deg, " ++ parts.stops ++ ")"

/-- The CSS half of `translateScaleMode`'s result. -/
structure ScaleModeCss where
  backgroundSize : Option String
  backgroundRepeat : Option String
  isBackground : Option Bool
  objectFit : Option String
deriving DecidableEq

/-- Model of `translateScaleMode(scaleMode, hasChildren, scalingFactor)`: the fixed
scale-mode table.  For TILE, `scalingFactor ? ... : "auto"` is a JS
truthiness test, so a zero factor also yields `"auto"`. -/
def translateScaleMode (scaleMode : String) (isBackground : Bool)
    (scalingFactor : Option JsNumber) : ScaleModeCss × ImageDownloadArguments :=
  if scaleMode = "FILL" then
    (if isBackground then ⟨some "cover", some "no-repeat", some true, none⟩
     else ⟨none, none, some false, some "cover"⟩,
     ⟨false, false, none, none⟩)
  else if scaleMode = "FIT" then
    (if isBackground then ⟨some "contain", some "no-repeat", some true, none⟩
     else ⟨none, none, some false, some "contain"⟩,
     ⟨false, false, none, none⟩)
  else if scaleMode = "TILE" then
    (⟨some
        (match scalingFactor with
         | some f =>
           if JsNumber.eqv f 0 then "auto"
           else "calc(var(--original-width) * " ++ decStr f ++
             ") calc(var(--original-height) * " ++ decStr f ++ ")"
         | none => "auto"),
      some "repeat", some true, none⟩,
     ⟨false, true, none, none⟩)
  else if scaleMode = "STRETCH" then
    (if isBackground then ⟨some "100% 100%", some "no-repeat", some true, none⟩
     else ⟨none, none, some false, some "fill"⟩,
     ⟨false, false, none, none⟩)
  else (⟨none, none, none, none⟩, ⟨false, false, none, none⟩)

/-- The inner character loop of `generateTransformHash`:
`acc = ((acc << 5) - acc + str.charCodeAt(i)) & 0xffffffff` (the `&` with
`0xffffffff` is a 32-bit signed wrap in JS). -/
def hashChars (acc : ℤ) (cs : List Char) : ℤ :=
  cs.foldl (fun a c => asInt32 (jsShl a 5 - a + (c.toNat : ℤ))) acc

/-- Model of `generateTransformHash(transform)`: hash the decimal renderings of the
flattened matrix entries, then take the first six lowercase hex digits of
the absolute value. -/
def generateTransformHash (t : FigTransform) : String :=
  let hash := t.flatten.foldl (fun acc v => hashChars acc (decStr v).toList) 0
  (String.mk (Nat.toDigits 16 hash.natAbs)).take 6

/-- Model of `handleImageTransform(imageTransform)`: cropping required, plus a
filename suffix derived from the transform hash. -/
def handleImageTransform (t : FigTransform) : ImageDownloadArguments :=
  ⟨true, false, some t, some (generateTransformHash t)⟩

/-- Model of `parsePatternPaint(raw)`: alignment switch defaults keep `"left"` /
`"top"`; `backgroundSize` is the rounded percentage of the scaling factor.
(The API requires `scalingFactor` on pattern paints; a missing field would
be a NaN in JS and is modelled as 1.) -/
def parsePatternPaint (raw : Paint) : SimplifiedPatternFill :=
  let horizontal :=
    if raw.horizontalAlignment = "START" then "left"
    else if raw.horizontalAlignment = "CENTER" then "center"
    else if raw.horizontalAlignment = "END" then "right"
    else "left"
  let vertical :=
    if raw.verticalAlignment = "START" then "top"
    else if raw.verticalAlignment = "CENTER" then "center"
    else if raw.verticalAlignment = "END" then "bottom"
    else "top"
  ⟨raw.sourceNodeId, "repeat",
    intStr (jsRound ((raw.scalingFactor.getD 1) * 100)) ++ "%",
    horizontal ++ " " ++ vertical⟩

/-- Model of `parsePaint(raw, hasChildren = false)` from `style.ts`.  IMAGE paints
combine the scale-mode table with transform-based crop metadata; SOLID
paints go through `convertColor` and, when the combined alpha is not 1,
`formatRGBAColor(raw.color, opacity)` — where `opacity` is the *combined*
alpha returned by `convertColor`; PATTERN and the four gradient kinds
produce descriptors; anything else throws (`.error`). -/
def parsePaint (att : JsNumber → JsNumber → JsNumber) (raw : Paint)
    (hasChildren : Bool) : Except String SimplifiedFill :=
  if raw.type = "IMAGE" then
    let isBackground := hasChildren || raw.scaleMode = "TILE"
    let cssAndProcessing := translateScaleMode raw.scaleMode isBackground raw.scalingFactor
    let css := cssAndProcessing.1
    let processing := cssAndProcessing.2
    let finalProcessing :=
      match raw.imageTransform with
      | some t =>
        let transformProcessing := handleImageTransform t
        { transformProcessing with
            requiresImageDimensions :=
              processing.requiresImageDimensions || transformProcessing.requiresImageDimensions }
      | none => processing
    .ok (.image ⟨raw.imageRef, raw.scaleMode, raw.scalingFactor,
      css.backgroundSize, css.backgroundRepeat, css.isBackground, css.objectFit,
      finalProcessing⟩)
  else if raw.type = "SOLID" then
    match raw.color with
    | some c =>
      let cv := convertColor c (raw.opacity.getD 1)
      if JsNumber.eqv cv.opacity 1 then .ok (.hex cv.hex)
      else .ok (.rgba (formatRGBAColor c cv.opacity))
    | none => .error "TypeError: cannot read color of undefined"
  else if raw.type = "PATTERN" then
    .ok (.pattern (parsePatternPaint raw))
  else if raw.type = "GRADIENT_LINEAR" ∨ raw.type = "GRADIENT_RADIAL" ∨
      raw.type = "GRADIENT_ANGULAR" ∨ raw.type = "GRADIENT_DIAMOND" then
    .ok (.gradient raw.type (convertGradientToCss att raw))
  else
    .error ("Unknown paint type: " ++ raw.type)

/-!
Section: `src/utils/image-processing.ts` (the full version with Sharp cropping)
-/

/-- Pixel dimensions of an image file. -/
structure Dims where
  width : ℕ
  height : ℕ
deriving Repr, DecidableEq

/-- The crop rectangle both `applyCropTransform` and
`downloadAndProcessImage` compute from the transform matrix and the pixel
dimensions (`src/utils/image-processing.ts`, both call sites use exactly
these four formulas):
`cropLeft = max(0, round(translateX * width))`,
`cropTop = max(0, round(translateY * height))`,
`cropWidth = min(width - cropLeft, round(scaleX * width))`,
`cropHeight = min(height - cropTop, round(scaleY * height))`. -/
def computeCropRegion (t : FigTransform) (dims : Dims) :
    ℤ × ℤ × ℤ × ℤ :=
  let scaleX := tGet t 0 0 1
  let scaleY := tGet t 1 1 1
  let translateX := tGet t 0 2 0
  let translateY := tGet t 1 2 0
  let w : JsNumber := JsNumber.ofInt dims.width
  let h : JsNumber := JsNumber.ofInt dims.height
  let cropLeft := max 0 (jsRound (translateX * w))
  let cropTop := max 0 (jsRound (translateY * h))
  let cropWidth := min ((dims.width : ℤ) - cropLeft) (jsRound (scaleX * w))
  let cropHeight := min ((dims.height : ℤ) - cropTop) (jsRound (scaleY * h))
  (cropLeft, cropTop, cropWidth, cropHeight)

/-- The crop rectangle reported in an `ImageProcessingResult`. -/
structure CropRegion where
  left : ℤ
  top : ℤ
  width : ℤ
  height : ℤ
deriving Repr, DecidableEq

/-- Record `ImageProcessingResult` from `image-processing.ts`.  (`processingLog`
is declared by the source but never written to.) -/
structure ImageProcessingResult where
  filePath : String
  originalDimensions : Dims
  finalDimensions : Dims
  wasCropped : Bool
  cropRegion : Option CropRegion
  cssVariables : Option String
  processingLog : List String
deriving Repr, DecidableEq

/-- The effect environment of the image pipeline.
`fetchImage url` is the download of one URL: `.error` models a rejected
`downloadFigmaImage` promise, `.ok dims` a saved file whose metadata
reports these pixel dimensions (the `getImageDimensions` fallback to
1000×1000 on an unreadable file is folded into the reported value).
`sharpOk path` tells whether Sharp's metadata read and crop of that file
succeed — `applyCropTransform` catches every such error internally and
falls back to the original file. -/
structure ImageEnv where
  fetchImage : String → Except String Dims
  sharpOk : String → Bool

/-- Model of `path.join(localPath, fileName)` (POSIX form). -/
def pathJoin (localPath fileName : String) : String := localPath ++ "/" ++ fileName

/-- Model of `applyCropTransform(imagePath, cropTransform)` given the current pixel
dimensions of the file at `imagePath`: on any Sharp failure, or on an
invalid (non-positive) crop rectangle, the original file is kept; otherwise
the file is overwritten by the extracted region (via a temp file and
rename).  Returns the path (always the original path) and the dimensions
of the file at that path afterwards. -/
def applyCropTransform (env : ImageEnv) (imagePath : String)
    (cropTransform : FigTransform) (dims : Dims) : String × Dims :=
  if env.sharpOk imagePath then
    let r := computeCropRegion cropTransform dims
    let cropWidth := r.2.2.1
    let cropHeight := r.2.2.2
    if cropWidth ≤ 0 ∨ cropHeight ≤ 0 then (imagePath, dims)
    else (imagePath, ⟨cropWidth.toNat, cropHeight.toNat⟩)
  else (imagePath, dims)

/-- Model of `generateImageCSSVariables` (width and height to CSS custom properties). -/
def generateImageCSSVariables (d : Dims) : String :=
  "--original-width: " ++ toString d.width ++ "px; --original-height: " ++
    toString d.height ++ "px;"

/-- Model of `downloadAndProcessImage(fileName, localPath, imageUrl, needsCropping,
cropTransform, requiresImageDimensions)`: download (a failed download
rejects the promise), read the original dimensions, crop when requested and
the computed rectangle is positive (otherwise keep the original and do not
set the crop flag), then optionally attach the CSS dimension variables. -/
def downloadAndProcessImage (env : ImageEnv) (fileName localPath imageUrl : String)
    (needsCropping : Bool) (cropTransform : Option FigTransform)
    (requiresImageDimensions : Bool) : Except String ImageProcessingResult :=
  match env.fetchImage imageUrl with
  | .error e => .error ("Error downloading image: " ++ e)
  | .ok originalDimensions =>
    let originalPath := pathJoin localPath fileName
    let afterCrop :
        String × Dims × Bool × Option CropRegion :=
      match needsCropping, cropTransform with
      | true, some t =>
        let r := computeCropRegion t originalDimensions
        let cropLeft := r.1
        let cropTop := r.2.1
        let cropWidth := r.2.2.1
        let cropHeight := r.2.2.2
        if 0 < cropWidth ∧ 0 < cropHeight then
          let pd := applyCropTransform env originalPath t originalDimensions
          (pd.1, pd.2, true, some ⟨cropLeft, cropTop, cropWidth, cropHeight⟩)
        else
          (originalPath, originalDimensions, false, none)
      | _, _ => (originalPath, originalDimensions, false, none)
    let finalPath := afterCrop.1
    let finalDimensions := afterCrop.2.1
    let wasCropped := afterCrop.2.2.1
    let cropRegion := afterCrop.2.2.2
    let cssVariables :=
      if requiresImageDimensions then some (generateImageCSSVariables finalDimensions)
      else none
    .ok ⟨finalPath, originalDimensions, finalDimensions, wasCropped, cropRegion,
      cssVariables, []⟩

/-!
Section: `src/services/figma.ts` — `FigmaService.downloadImages`
-/

/-- One element of the `items` array `downloadImages` receives. -/
structure DownloadItem where
  imageRef : Option String
  nodeId : Option String
  fileName : String
  needsCropping : Bool
  cropTransform : Option FigTransform
  requiresImageDimensions : Bool
deriving DecidableEq

/-- The environment of one `downloadImages` invocation: the image pipeline
effects plus the three URL maps the Figma API returns (`fillUrls` from
`getImageFillUrls`, and the per-format node-render maps from
`getNodeRenderUrls`; `filterValidImages` has already dropped null entries,
`none` models an absent entry).  `pngScale` / `svgOptions` only
parameterize the URL requests and are folded into the maps. -/
structure FigmaEnv where
  img : ImageEnv
  fillUrls : String → Option String
  pngUrls : String → Option String
  svgUrls : String → Option String

/-- JS `Promise.all`: fail-fast — rejects as soon as any member rejects,
otherwise resolves with all values in order. -/
def promiseAll {A : Type} : List (Except String A) → Except String (List A)
  | [] => .ok []
  | x :: xs =>
    match x with
    | .error e => .error e
    | .ok a => (promiseAll xs).map (a :: ·)

/-- The per-item download a batch starts, when the URL map has a truthy
URL for the item (`imageUrl ? downloadAndProcessImage(...) : null`). -/
def startedDownload (env : FigmaEnv) (localPath : String)
    (url : Option String) (item : DownloadItem) :
    Option (Except String ImageProcessingResult) :=
  match strTruthy url with
  | some u =>
    some (downloadAndProcessImage env.img item.fileName localPath u
      item.needsCropping item.cropTransform item.requiresImageDimensions)
  | none => none

/-- The image-fill batch of `downloadImages`: the fill items
(`!!item.imageRef` is a JS truthiness test) whose `fillUrls` lookup
yielded a URL, with their started downloads. -/
def fillDownloadsOf (env : FigmaEnv) (localPath : String)
    (items : List DownloadItem) : List (Except String ImageProcessingResult) :=
  (items.filter (fun i => (strTruthy i.imageRef).isSome)).filterMap (fun i =>
    startedDownload env localPath (env.fillUrls ((strTruthy i.imageRef).getD "")) i)

/-- The PNG render batch of `downloadImages`: the render nodes whose
lowercased filename does not end in `.svg` and whose render URL resolved. -/
def pngDownloadsOf (env : FigmaEnv) (localPath : String)
    (items : List DownloadItem) : List (Except String ImageProcessingResult) :=
  ((items.filter (fun i => (strTruthy i.nodeId).isSome)).filter
      (fun n => !(n.fileName.toLower.endsWith ".svg"))).filterMap (fun n =>
    startedDownload env localPath (env.pngUrls ((strTruthy n.nodeId).getD "")) n)

/-- The SVG render batch of `downloadImages`. -/
def svgDownloadsOf (env : FigmaEnv) (localPath : String)
    (items : List DownloadItem) : List (Except String ImageProcessingResult) :=
  ((items.filter (fun i => (strTruthy i.nodeId).isSome)).filter
      (fun n => n.fileName.toLower.endsWith ".svg")).filterMap (fun n =>
    startedDownload env localPath (env.svgUrls ((strTruthy n.nodeId).getD "")) n)

/-- Model of `FigmaService.downloadImages(fileKey, localPath, items, options)` from
`src/services/figma.ts` (the processing-enabled version): partition into
image fills and render nodes (`!!item.imageRef` / `!!item.nodeId` are JS
truthiness tests), split renders into PNG/SVG by filename extension, start
every download whose URL resolved, and await the batches with the
fail-fast `Promise.all`; the flattened results are fills, then PNG
renders, then SVG renders. -/
def downloadImages (env : FigmaEnv) (localPath : String)
    (items : List DownloadItem) : Except String (List ImageProcessingResult) :=
  if items.isEmpty then .ok []
  else
    match promiseAll (fillDownloadsOf env localPath items) with
    | .error e => .error e
    | .ok fills =>
      match promiseAll (pngDownloadsOf env localPath items) with
      | .error e => .error e
      | .ok pngs =>
        match promiseAll (svgDownloadsOf env localPath items) with
        | .error e => .error e
        | .ok svgs => .ok (fills ++ pngs ++ svgs)

/-!
Section: `src/mcp/tools/download-figma-images-tool.ts` — deduplication
-/

/-- One element of the tool's `nodes` parameter. -/
structure ToolNode where
  nodeId : String
  imageRef : Option String
  fileName : String
  needsCropping : Option Bool
  cropTransform : Option FigTransform
  requiresImageDimensions : Option Bool
  filenameSuffix : Option String

/-- One value of the tool's `imageRefMap`. -/
structure DedupEntry where
  canonicalFileName : String
  requestedFileNames : List String
deriving Repr, DecidableEq

/-- The accumulator of the tool's `nodes.forEach` loop. -/
structure DedupState where
  deduplicatedItems : List DownloadItem
  imageRefMap : List (String × DedupEntry)

/-- Update the first element satisfying the predicate (models
`findIndex` followed by an in-place field assignment). -/
def mapFirstWhere {A : Type} (p : A → Bool) (f : A → A) : List A → List A
  | [] => []
  | x :: xs => if p x then f x :: xs else x :: mapFirstWhere p f xs

/-- The filename-suffix application at the top of the loop:
`if (node.filenameSuffix && !node.fileName.includes(node.filenameSuffix))`
rebuild the name as `name-suffix.ext` (with JS `split`/`pop`/`lastIndexOf`
semantics for the extension). -/
def finalFileNameOf (n : ToolNode) : String :=
  match strTruthy n.filenameSuffix with
  | some suf =>
    if jsIncludes n.fileName suf then n.fileName
    else
      let parts := n.fileName.splitOn "."
      let ext := parts.getLastD ""
      let nameWithoutExt :=
        if parts.length ≤ 1 then "" else String.intercalate "." parts.dropLast
      nameWithoutExt ++ "-" ++ suf ++ "." ++ ext
  | none => n.fileName

/-- The dedupe key: `` `${node.imageRef}-${node.filenameSuffix || "none"}` ``. -/
def dedupeKeyOf (ref : String) (suf : Option String) : String :=
  ref ++ "-" ++ ((strTruthy suf).getD "none")

/-- The body of the tool's `nodes.forEach` loop: image fills without a
suffix sharing a dedupe key collapse onto the existing entry (recording
the requested name as an alias and propagating the dimension requirement);
everything else appends a download item. -/
def processNode (st : DedupState) (n : ToolNode) : DedupState :=
  let finalFileName := finalFileNameOf n
  let baseNeedsCropping := n.needsCropping.getD false
  let baseRequiresDims := n.requiresImageDimensions.getD false
  match strTruthy n.imageRef with
  | some ref =>
    let key := dedupeKeyOf ref n.filenameSuffix
    match strTruthy n.filenameSuffix, mapGet st.imageRefMap key with
    | none, some existing =>
      let m' := objSet st.imageRefMap key
        ⟨existing.canonicalFileName, existing.requestedFileNames ++ [finalFileName]⟩
      let items' :=
        if baseRequiresDims then
          mapFirstWhere
            (fun it => it.imageRef == some ref &&
              it.fileName == existing.canonicalFileName)
            (fun it => { it with requiresImageDimensions := true })
            st.deduplicatedItems
        else st.deduplicatedItems
      ⟨items', m'⟩
    | _, _ =>
      ⟨st.deduplicatedItems ++
        [⟨some ref, none, finalFileName, baseNeedsCropping, n.cropTransform,
          baseRequiresDims⟩],
        objSet st.imageRefMap key ⟨finalFileName, [finalFileName]⟩⟩
  | none =>
    ⟨st.deduplicatedItems ++
      [⟨none, some n.nodeId, finalFileName, baseNeedsCropping, n.cropTransform,
        baseRequiresDims⟩],
      st.imageRefMap⟩

/-- The whole deduplication pass over the tool's `nodes` parameter. -/
def dedupNodes (nodes : List ToolNode) : DedupState :=
  nodes.foldl processNode ⟨[], []⟩

/-- The alias list the tool reports for one result line: find the map
entry whose canonical name matches the result's file name; when it was
requested under several names, list the others. -/
def aliasesFor (m : List (String × DedupEntry)) (fileName : String) :
    List String :=
  match (m.map (·.2)).find? (fun e => e.canonicalFileName == fileName) with
  | some entry =>
    if 1 < entry.requestedFileNames.length then
      entry.requestedFileNames.filter (fun nm => nm ≠ fileName)
    else []
  | none => []

/-!
Section: The traversal engine (node-walker)

The walker's implementation file is not part of the source tree (only its
type declarations, re-exports and callers are), so it is modelled from the
spec, §4.1: depth-first pre-order walk; a rejecting `nodeFilter` excludes
the node and its entire subtree; nodes beyond `maxDepth` from their root
are not visited.
-/

/-- A raw design-tree node, as far as the traversal claims need it. -/
inductive RawNode where
  | mk (id : String) (typ : String) (children : List RawNode)

def RawNode.id : RawNode → String
  | .mk i _ _ => i

def RawNode.typ : RawNode → String
  | .mk _ t _ => t

def RawNode.children : RawNode → List RawNode
  | .mk _ _ cs => cs

/-- Traversal options: depth limit and node filter (an absent filter
accepts everything). -/
structure WalkOptions where
  maxDepth : Option ℕ
  keep : RawNode → Bool

/-- An output node of the traversal. -/
inductive OutNode where
  | mk (id : String) (children : List OutNode)

def OutNode.id : OutNode → String
  | .mk i _ => i

def OutNode.children : OutNode → List OutNode
  | .mk _ cs => cs

/-- Modelled from the spec: the node-walker's visit of one node at `depth`
(the root is at depth 0).  A node beyond the depth limit is not visited; a
node the filter rejects is excluded together with its entire subtree;
otherwise the node is emitted and its children walked at `depth + 1`. -/
def walkNode (opts : WalkOptions) : ℕ → RawNode → Option OutNode
  | depth, .mk i t cs =>
    let beyond : Bool :=
      match opts.maxDepth with
      | some k => decide (k < depth)
      | none => false
    if beyond then none
    else if !opts.keep (.mk i t cs) then none
    else some (.mk i ((cs.attach.map fun c => walkNode opts (depth + 1) c.1).filterMap id))
termination_by _ n => sizeOf n
decreasing_by
  have h := List.sizeOf_lt_of_mem c.2
  simp only [RawNode.mk.sizeOf_spec]
  omega

/-- All ids of a raw subtree, in pre-order. -/
def subtreeIds : RawNode → List String
  | .mk i _ cs => i :: ((cs.attach.map fun c => subtreeIds c.1).flatten)
termination_by n => sizeOf n
decreasing_by
  have h := List.sizeOf_lt_of_mem c.2
  simp only [RawNode.mk.sizeOf_spec]
  omega

/-- All ids of an output subtree, in pre-order. -/
def outIds : OutNode → List String
  | .mk i cs => i :: ((cs.attach.map fun c => outIds c.1).flatten)
termination_by n => sizeOf n
decreasing_by
  have h := List.sizeOf_lt_of_mem c.2
  simp only [OutNode.mk.sizeOf_spec]
  omega

/-- Ids of an optional output subtree (an excluded node contributes none). -/
def outIdsOpt : Option OutNode → List String
  | none => []
  | some o => outIds o

/-- Relation stating that `x` occurs in `t` (as `t` itself or inside one of its children). -/
inductive Subtree (x : RawNode) : RawNode → Prop where
  | refl : Subtree x x
  | child {c t : RawNode} : c ∈ t.children → Subtree x c → Subtree x t

/-- Structural induction over raw nodes (the children are a nested list,
so the recursor is spelled out once here). -/
def rawNode_ind (P : RawNode → Prop)
    (h : ∀ i t cs, (∀ c ∈ cs, P c) → P (.mk i t cs)) : ∀ n, P n
  | .mk i t cs => h i t cs (fun c hc => rawNode_ind P h c)
termination_by n => sizeOf n
decreasing_by
  have hlt := List.sizeOf_lt_of_mem hc
  simp only [RawNode.mk.sizeOf_spec]
  omega

/-!
Auxiliary run-level definitions for the registry claims.
-/

/-- The ids handed back by a call sequence run from the fresh registry. -/
def runIds {V : Type} [DecidableEq V] (supply : ℕ → Fin 6 → Fin 36)
    (calls : List (V × String)) : List String :=
  (runFindOrCreate supply calls (emptyRegState V)).1

/-- The final registry contents of a call sequence run from the fresh
registry. -/
def runStyles {V : Type} [DecidableEq V] (supply : ℕ → Fin 6 → Fin 36)
    (calls : List (V × String)) : List (String × V) :=
  (runFindOrCreate supply calls (emptyRegState V)).2.styles

/-- The registry contents after the first `k` calls of a sequence. -/
def stylesAfter {V : Type} [DecidableEq V] (supply : ℕ → Fin 6 → Fin 36)
    (calls : List (V × String)) (k : ℕ) : List (String × V) :=
  (runFindOrCreate supply (calls.take k) (emptyRegState V)).2.styles

/-- Both key-sides of a registry are duplicate-free: no two entries share
an id and no two entries share a (structurally equal) value. -/
def RegInv {V : Type} (styles : List (String × V)) : Prop :=
  (styles.map Prod.fst).Nodup ∧ (styles.map Prod.snd).Nodup

/-- The id the registry scan associates to a value (the id of the first
entry whose canonical serialization matches). -/
def lookupVal {V : Type} [DecidableEq V] (styles : List (String × V)) (v : V) :
    Option String :=
  (styles.find? (fun p => decide (p.2 = v))).map (·.1)

/-- The values a resolved batch delivers (in batch order) when no member
rejected. -/
def okValues {A : Type} (l : List (Except String A)) : List A :=
  l.filterMap (fun e => e.toOption)

/-- Written from the spec's words, for comparison with the code: a linear
gradient stop's CSS percentage is its `[0,1]` handle-line position mapped
affinely onto the span `[min t₀ t₁, max t₀ t₁]` where the extended handle
line crosses the unit-square boundary, clamped to `[0,1]` and rounded. -/
def specStopPercent (t0 t1 pos : JsNumber) : ℤ :=
  let tmin := JsNumber.minJ t0 t1
  let tmax := JsNumber.maxJ t0 t1
  jsRound (JsNumber.maxJ 0 (JsNumber.minJ 1 ((pos - tmin) / (tmax - tmin))) * 100)

/-- A linear-gradient paint with the given first two handles and stops
(all other fields empty), used to state the gradient claims. -/
def linearPaintWith (h1 h2 : Vec2) (stops : List ColorStop) : Paint :=
  { Paint.base with
    type := "GRADIENT_LINEAR"
    gradientHandlePositions := some [h1, h2]
    gradientStops := stops }

deriving instance DecidableEq for Except

/-- Concrete batch scenario: five image fills whose URLs all resolve, with
the third URL rejecting at download time. -/
def c2Env : FigmaEnv :=
  ⟨⟨fun u => if u = "url3" then .error "boom" else .ok ⟨10, 10⟩, fun _ => true⟩,
    fun r => some ("url" ++ r.drop 1), fun _ => none, fun _ => none⟩

/-- The five download items of the failing-batch scenario. -/
def c2Items : List DownloadItem :=
  [⟨some "r1", none, "f1.png", false, none, false⟩,
   ⟨some "r2", none, "f2.png", false, none, false⟩,
   ⟨some "r3", none, "f3.png", false, none, false⟩,
   ⟨some "r4", none, "f4.png", false, none, false⟩,
   ⟨some "r5", none, "f5.png", false, none, false⟩]

/-- Two-item scenario for the partial-result witness: one resolvable fill
and one whose URL lookup returns nothing. -/
def c2wEnv : FigmaEnv :=
  ⟨⟨fun _ => .ok ⟨8, 8⟩, fun _ => false⟩,
    fun r => if r = "r1" then some "urlA" else none, fun _ => none, fun _ => none⟩

/-- The two download items of the partial-result witness scenario. -/
def c2wItems : List DownloadItem :=
  [⟨some "r1", none, "a.png", false, none, false⟩,
   ⟨some "r2", none, "b.png", false, none, false⟩]

/-- A tool node is foreign to the claim's image pair when its (suffixed)
filename differs from the pair's canonical name and, if it is an image
fill, it neither uses the pair's image reference nor collides with the
pair's dedupe key. -/
def ForeignTo (r f1 : String) (n : ToolNode) : Prop :=
  finalFileNameOf n ≠ f1 ∧
  ∀ r', strTruthy n.imageRef = some r' →
    r' ≠ r ∧ dedupeKeyOf r' n.filenameSuffix ≠ dedupeKeyOf r none

/-- Loop invariant before the pair's first item is processed: no map entry
for the pair's key or canonical name, and no download item for its
reference. -/
def DedupInvPre (r f1 : String) (st : DedupState) : Prop :=
  (∀ e ∈ st.imageRefMap, e.1 ≠ dedupeKeyOf r none ∧ e.2.canonicalFileName ≠ f1) ∧
  (st.deduplicatedItems.filter (fun it => it.imageRef == some r)).map (·.fileName) = []

/-- Loop invariant once the pair's entry exists: the map holds exactly one
entry at the pair's key (currently `cur`), every other entry has a
different key and canonical name, and exactly one download item carries
the pair's reference, under the canonical filename. -/
def DedupInvMain (r f1 : String) (cur : DedupEntry) (st : DedupState) : Prop :=
  (∃ mA mB, st.imageRefMap = mA ++ (dedupeKeyOf r none, cur) :: mB ∧
    ∀ e ∈ mA ++ mB, e.1 ≠ dedupeKeyOf r none ∧ e.2.canonicalFileName ≠ f1) ∧
  (st.deduplicatedItems.filter (fun it => it.imageRef == some r)).map (·.fileName) = [f1]

/-- A random-draw supply that produces the same six draws for the first
two generated ids — the collision `generateVarId` never checks for. -/
def c1Supply : ℕ → Fin 6 → Fin 36 := fun n _ => if n < 2 then 0 else 1

/-- Three registry calls: two with one value around one with another. -/
def c1Calls : List (ℕ × String) := [(0, "fill"), (1, "fill"), (0, "fill")]

/-- A collision-free draw supply for the same three calls. -/
def c1wSupply : ℕ → Fin 6 → Fin 36 := fun n _ => if n = 0 then 0 else 1

/-- C10: every style id `generateVarId` produces has the exact shape of the
prefix, an underscore, then exactly six characters drawn from A-Z and 0-9;
and on a registry miss `findOrCreateVar` stores the value under exactly the
id `generateVarId` returns, computed without consulting the ids already
present in the registry (no collision check). -/
theorem generateVarId_shape_and_no_collision_check :
    (∀ (pfx : String) (draws : Fin 6 → Fin 36), ∃ sfx : String,
      generateVarId pfx draws = pfx ++ "_" ++ sfx ∧ sfx.length = 6 ∧
        ∀ c ∈ sfx.toList, c ∈ varIdChars) ∧
    (∀ (V : Type) (inst : DecidableEq V) (supply : ℕ → Fin 6 → Fin 36)
      (s : RegState V) (value : V) (pfx : String),
      s.styles.find? (fun p => decide (p.2 = value)) = none →
      findOrCreateVar supply s value pfx =
        (generateVarId pfx (supply s.used),
          ⟨objSet s.styles (generateVarId pfx (supply s.used)) value, s.used + 1⟩)) := by
  constructor
  · intro pfx draws
    refine ⟨String.mk (List.ofFn fun i : Fin 6 =>
      varIdChars.get (Fin.cast varIdChars_length.symm (draws i))), rfl, ?_, ?_⟩
    · simp [String.length]
    · intro c hc
      simp only [String.toList] at hc
      rw [List.mem_ofFn] at hc
      obtain ⟨i, hi⟩ := hc
      rw [← hi]
      exact List.get_mem varIdChars _ _
  · intro V inst supply s value pfx h
    simp [findOrCreateVar, h]

/-- C8 counterexample: at `{top 10, right 20, bottom 30, left 20}` the
shorthand generator emits the three-value form `"10px 20px 30px"`, not the
four-value form the claim predicts for every non-symmetric record. -/
theorem generateCSSShorthand_three_value_counterexample :
    generateCSSShorthandDefault ⟨10, 20, 30, 20⟩ = some "10px 20px 30px" ∧
    generateCSSShorthandDefault ⟨10, 20, 30, 20⟩ ≠ some "10px 20px 30px 20px" := by
  decide

/-- C4 (code bug): for a SOLID paint with color `rgba(0,0,0,a=0.5)` and no
paint-level opacity, the claim's alpha is `round(1 * 0.5 * 100)/100 = 0.5`,
but `parsePaint` emits `"rgba(0, 0, 0, 0.25)"`: the combined alpha returned
by `convertColor` is passed back into `formatRGBAColor`, which multiplies
by `color.a` a second time. -/
theorem parsePaint_solid_double_alpha :
    parsePaint (fun _ _ => 0)
      { Paint.base with type := "SOLID", color := some ⟨0, 0, 0, JsNumber.ofInt 1 / 2⟩ }
      false = .ok (.rgba "rgba(0, 0, 0, 0.25)") ∧
    "rgba(0, 0, 0, 0.25)" ≠ "rgba(0, 0, 0, 0.5)" :=
  ⟨rfl, by decide⟩

/-- C6: a paint whose type is none of IMAGE, SOLID, PATTERN,
GRADIENT_LINEAR, GRADIENT_RADIAL, GRADIENT_ANGULAR or GRADIENT_DIAMOND
makes `parsePaint` throw (`.error`), never silently emit a fill value. -/
theorem parsePaint_unknown_type_raises (att : JsNumber → JsNumber → JsNumber)
    (raw : Paint) (hasChildren : Bool)
    (h : raw.type ∉ ["IMAGE", "SOLID", "PATTERN", "GRADIENT_LINEAR",
      "GRADIENT_RADIAL", "GRADIENT_ANGULAR", "GRADIENT_DIAMOND"]) :
    parsePaint att raw hasChildren = .error ("Unknown paint type: " ++ raw.type) := by
  simp only [List.mem_cons, List.not_mem_nil, or_false, not_or] at h
  obtain ⟨h1, h2, h3, h4, h5, h6, h7⟩ := h
  simp [parsePaint, h1, h2, h3, h4, h5, h6, h7]

/-- Witness for C6 at the unhandled paint type `"VIDEO"`. -/
theorem parsePaint_unknown_type_raises_witness :
    parsePaint (fun _ _ => 0) { Paint.base with type := "VIDEO" } false =
      .error "Unknown paint type: VIDEO" :=
  parsePaint_unknown_type_raises (fun _ _ => 0) _ false (by decide)

/-- C5: when the computed crop rectangle is degenerate or out of bounds
(computed crop width or height at most 0, with origin and extent computed
from the translate and scale components times the pixel dimensions), the
pipeline keeps the original uncropped asset at its original dimensions,
reports `wasCropped = false` with no crop region, and still resolves
successfully — the condition is non-fatal. -/
theorem downloadAndProcessImage_degenerate_crop (env : ImageEnv) (fileName localPath imageUrl : String)
    (t : FigTransform) (dims : Dims) (req : Bool)
    (hfetch : env.fetchImage imageUrl = .ok dims)
    (hdeg : (computeCropRegion t dims).2.2.1 ≤ 0 ∨ (computeCropRegion t dims).2.2.2 ≤ 0) :
    downloadAndProcessImage env fileName localPath imageUrl true (some t) req =
      .ok ⟨pathJoin localPath fileName, dims, dims, false, none,
        (if req then some (generateImageCSSVariables dims) else none), []⟩ := by
  have hneg : ¬(0 < (computeCropRegion t dims).2.2.1 ∧
      0 < (computeCropRegion t dims).2.2.2) := by
    rcases hdeg with h | h
    · intro hc
      omega
    · intro hc
      omega
  simp [downloadAndProcessImage, hfetch, hneg]

/-- Witness for C5: a zero-scale transform on a 100 by 100 image. -/
theorem downloadAndProcessImage_degenerate_crop_witness :
    downloadAndProcessImage ⟨fun _ => .ok ⟨100, 100⟩, fun _ => true⟩ "img.png" "/assets"
      "https://example" true (some [[0, 0, 0], [0, 0, 0]]) false =
      .ok ⟨"/assets/img.png", ⟨100, 100⟩, ⟨100, 100⟩, false, none, none, []⟩ := by
  have h := downloadAndProcessImage_degenerate_crop ⟨fun _ => .ok ⟨100, 100⟩, fun _ => true⟩ "img.png" "/assets"
    "https://example" [[0, 0, 0], [0, 0, 0]] ⟨100, 100⟩ false rfl (by decide)
  exact h

theorem mapLinearGradient_spec (att : JsNumber → JsNumber → JsNumber)
    (stops : List ColorStop) (s e : Vec2) (t0 t1 : JsNumber)
    (hnz : ¬ JsNumber.eqv ((e.x - s.x) * (e.x - s.x) + (e.y - s.y) * (e.y - s.y)) 0)
    (hlen : findExtendedLineIntersections s e = [t0, t1]) :
    mapLinearGradient att stops s e =
      ⟨String.intercalate ", " (stops.map fun st =>
          formatRGBAColor st.color 1 ++ " " ++
            intStr (specStopPercent t0 t1 st.position) ++ "%"),
        intStr (jsRound (att (e.y - s.y) (e.x - s.x) + 90)) ++ "deg"⟩ := by
  simp only [mapLinearGradient, hlen]
  rw [if_neg hnz, if_pos (by simp)]
  rfl


theorem c7part1 (att : JsNumber → JsNumber → JsNumber) (stops : List ColorStop)
    (hatt : att 0 1 = 0) :
    ∃ rest, convertGradientToCss att (linearPaintWith ⟨0, 0⟩ ⟨1, 0⟩ stops) =
      "linear-gradient(90deg, " ++ rest := by
  have shape : convertGradientToCss att (linearPaintWith ⟨0, 0⟩ ⟨1, 0⟩ stops) =
      "linear-gradient(" ++
        (mapLinearGradient att (sortStops stops) ⟨0, 0⟩ ⟨1, 0⟩).cssGeometry ++ ", " ++
        (mapLinearGradient att (sortStops stops) ⟨0, 0⟩ ⟨1, 0⟩).stops ++ ")" := rfl
  have hm := mapLinearGradient_spec att (sortStops stops) ⟨0, 0⟩ ⟨1, 0⟩
    ⟨0, 10 ^ 6⟩ ⟨10 ^ 6, 10 ^ 6⟩ (by decide) (by decide)
  have h0 : att ((Vec2.mk 1 0).y - (Vec2.mk 0 0).y)
      ((Vec2.mk 1 0).x - (Vec2.mk 0 0).x) = 0 := hatt
  rw [shape, hm]
  simp only [h0]
  have h90 : intStr (jsRound ((0 : JsNumber) + 90)) = "90" := by decide
  rw [h90]
  exact ⟨_, rfl⟩




/-- C2 counterexample: five concurrent fill downloads with one rejecting --
`downloadImages` rejects as a whole (fail-fast `Promise.all`), so no result
array containing the other four items is returned, contrary to the claim. -/
theorem downloadImages_failfast_counterexample :
    downloadImages c2Env "/imgs" c2Items = .error "Error downloading image: boom" ∧
    ¬∃ rs, downloadImages c2Env "/imgs" c2Items = .ok rs ∧ rs.length = 4 := by
  refine ⟨by decide, ?_⟩
  rintro ⟨rs, h, -⟩
  rw [show downloadImages c2Env "/imgs" c2Items =
    .error "Error downloading image: boom" by decide] at h
  exact Except.noConfusion h

theorem promiseAll_eq_ok {A : Type} (l : List (Except String A))
    (h : ∀ e ∈ l, e.isOk = true) : promiseAll l = .ok (okValues l) := by
  induction l with
  | nil => rfl
  | cons e t ih =>
    have he := h e (List.mem_cons_self e t)
    match e, he with
    | .ok a, _ =>
      simp only [promiseAll, okValues, List.filterMap_cons]
      rw [show promiseAll t = .ok (okValues t) from ih (fun x hx => h x (List.mem_cons_of_mem _ hx))]
      rfl

theorem okValues_length_le {A : Type} (l : List (Except String A)) :
    (okValues l).length ≤ l.length :=
  List.length_filterMap_le _ _

theorem filter_partition_length {A : Type} (p : A → Bool) (l : List A) :
    (l.filter p).length + (l.filter (fun x => !p x)).length = l.length := by
  induction l with
  | nil => rfl
  | cons x t ih =>
    by_cases hx : p x = true
    · simp [List.filter_cons, hx, ih]
      omega
    · simp [List.filter_cons, hx, Bool.not_eq_true] at ih ⊢
      omega

theorem filter_disjoint_length {A : Type} (p q : A → Bool) (l : List A)
    (h : ∀ x ∈ l, ¬(p x = true ∧ q x = true)) :
    (l.filter p).length + (l.filter q).length ≤ l.length := by
  induction l with
  | nil => simp
  | cons x t ih =>
    have ht := ih (fun y hy => h y (List.mem_cons_of_mem _ hy))
    have hx := h x (List.mem_cons_self x t)
    by_cases hp : p x = true <;> by_cases hq : q x = true
    · exact absurd ⟨hp, hq⟩ hx
    · simp [List.filter_cons, hp, hq]
      omega
    · simp [List.filter_cons, hp, hq]
      omega
    · simp [List.filter_cons, hp, hq]
      omega

/-- C2 (amended): an item whose URL does not resolve is locally dropped --
when every started download succeeds, `downloadImages` resolves with
exactly the resolved items' results in batch order, and the result is no
longer than the item list (missing-URL items are simply absent); and a
failure inside crop processing is local to its item: the download still
resolves with the original uncropped file.  A rejected download, by
contrast, rejects the whole call — see the counterexample. -/
theorem downloadImages_partial_failure :
    (∀ (env : FigmaEnv) (localPath : String) (items : List DownloadItem),
      (∀ e ∈ fillDownloadsOf env localPath items ++ pngDownloadsOf env localPath items ++
          svgDownloadsOf env localPath items, e.isOk = true) →
      (∀ i ∈ items, ¬((strTruthy i.imageRef).isSome = true ∧ (strTruthy i.nodeId).isSome = true)) →
      downloadImages env localPath items =
        .ok (okValues (fillDownloadsOf env localPath items) ++
          okValues (pngDownloadsOf env localPath items) ++
          okValues (svgDownloadsOf env localPath items)) ∧
      (okValues (fillDownloadsOf env localPath items) ++
        okValues (pngDownloadsOf env localPath items) ++
        okValues (svgDownloadsOf env localPath items)).length ≤ items.length) ∧
    (∀ (ienv : ImageEnv) (fileName localPath url : String) (t : FigTransform)
      (dims : Dims) (req : Bool),
      ienv.fetchImage url = .ok dims →
      ienv.sharpOk (pathJoin localPath fileName) = false →
      ∃ r, downloadAndProcessImage ienv fileName localPath url true (some t) req = .ok r ∧
        r.filePath = pathJoin localPath fileName ∧ r.finalDimensions = dims) := by
  constructor
  · intro env localPath items hok hone
    have hf : ∀ e ∈ fillDownloadsOf env localPath items, e.isOk = true := by
      intro e he
      exact hok e (by simp [he])
    have hp : ∀ e ∈ pngDownloadsOf env localPath items, e.isOk = true := by
      intro e he
      exact hok e (by simp [he])
    have hs : ∀ e ∈ svgDownloadsOf env localPath items, e.isOk = true := by
      intro e he
      exact hok e (by simp [he])
    constructor
    · cases items with
      | nil =>
        simp [downloadImages, fillDownloadsOf, pngDownloadsOf, svgDownloadsOf, okValues]
      | cons i t =>
        rw [downloadImages]
        rw [if_neg (by simp)]
        rw [promiseAll_eq_ok _ hf, promiseAll_eq_ok _ hp, promiseAll_eq_ok _ hs]
    · -- length bound
      have l1 : (okValues (fillDownloadsOf env localPath items)).length ≤
          (items.filter (fun i => (strTruthy i.imageRef).isSome)).length :=
        le_trans (okValues_length_le _) (List.length_filterMap_le _ _)
      have l2 : (okValues (pngDownloadsOf env localPath items)).length ≤
          ((items.filter (fun i => (strTruthy i.nodeId).isSome)).filter
            (fun n => !(n.fileName.toLower.endsWith ".svg"))).length :=
        le_trans (okValues_length_le _) (List.length_filterMap_le _ _)
      have l3 : (okValues (svgDownloadsOf env localPath items)).length ≤
          ((items.filter (fun i => (strTruthy i.nodeId).isSome)).filter
            (fun n => n.fileName.toLower.endsWith ".svg")).length :=
        le_trans (okValues_length_le _) (List.length_filterMap_le _ _)
      have lpart : ((items.filter (fun i => (strTruthy i.nodeId).isSome)).filter
            (fun n => !(n.fileName.toLower.endsWith ".svg"))).length +
          ((items.filter (fun i => (strTruthy i.nodeId).isSome)).filter
            (fun n => n.fileName.toLower.endsWith ".svg")).length =
          (items.filter (fun i => (strTruthy i.nodeId).isSome)).length := by
        have hq := filter_partition_length
          (fun n : DownloadItem => !(n.fileName.toLower.endsWith ".svg"))
          (items.filter (fun i => (strTruthy i.nodeId).isSome))
        simpa using hq
      have ldisj : (items.filter (fun i => (strTruthy i.imageRef).isSome)).length +
          (items.filter (fun i => (strTruthy i.nodeId).isSome)).length ≤ items.length :=
        filter_disjoint_length _ _ items (fun x hx => by
          intro hboth
          exact hone x hx ⟨hboth.1, hboth.2⟩)
      simp only [List.length_append]
      omega
  · intro ienv fileName localPath url t dims req hfetch hsharp
    rw [downloadAndProcessImage, hfetch]
    simp only [applyCropTransform, hsharp]
    by_cases hpos : 0 < (computeCropRegion t dims).2.2.1 ∧ 0 < (computeCropRegion t dims).2.2.2
    · rw [if_pos hpos]
      exact ⟨_, rfl, rfl, rfl⟩
    · rw [if_neg hpos]
      exact ⟨_, rfl, rfl, rfl⟩




theorem mapGet_eq_none_iff {V : Type} (m : List (String × V)) (k : String) :
    mapGet m k = none ↔ ∀ e ∈ m, e.1 ≠ k := by
  simp [mapGet, List.find?_eq_none]

theorem mapGet_mem {V : Type} (m : List (String × V)) (k : String) (v : V)
    (h : mapGet m k = some v) : (k, v) ∈ m := by
  rw [mapGet, Option.map_eq_some'] at h
  obtain ⟨p, hp, hv⟩ := h
  have hpred := List.find?_some hp
  have hmem := List.mem_of_find?_eq_some hp
  have hk : p.1 = k := by simpa using hpred
  have hpkv : p = (k, v) := Prod.ext hk hv
  rwa [hpkv] at hmem

theorem objSet_absent {V : Type} (m : List (String × V)) (k : String) (v : V)
    (h : ∀ e ∈ m, e.1 ≠ k) : objSet m k v = m ++ [(k, v)] := by
  have hany : m.any (fun p => p.1 == k) = false := by
    rw [List.any_eq_false]
    intro e he
    simpa using h e he
  simp [objSet, hany]

theorem objSet_present {V : Type} (m : List (String × V)) (k : String) (v : V)
    (h : m.any (fun p => p.1 == k) = true) :
    objSet m k v = m.map (fun p => if p.1 == k then (k, v) else p) := by
  rw [objSet, if_pos h]

theorem mapGet_any {V : Type} (m : List (String × V)) (k : String) (v : V)
    (h : mapGet m k = some v) : m.any (fun p => p.1 == k) = true := by
  have := mapGet_mem m k v h
  simp only [List.any_eq_true]
  exact ⟨(k, v), this, by simp⟩

theorem mapGet_first_hit {V : Type} (mA mB : List (String × V)) (k : String) (v : V)
    (h : ∀ e ∈ mA, e.1 ≠ k) :
    mapGet (mA ++ (k, v) :: mB) k = some v := by
  rw [mapGet, List.find?_append]
  have h1 : mA.find? (fun p => p.1 == k) = none := by
    rw [List.find?_eq_none]
    intro e he
    simpa using h e he
  rw [h1]
  simp

theorem filter_map_mapFirstWhere {A B : Type} (p0 : A → Bool) (f : A → A)
    (p : A → Bool) (g : A → B)
    (hf : ∀ x, p (f x) = p x ∧ g (f x) = g x) (l : List A) :
    ((mapFirstWhere p0 f l).filter p).map g = (l.filter p).map g := by
  induction l with
  | nil => rfl
  | cons x t ih =>
    simp only [mapFirstWhere]
    by_cases h0 : p0 x = true
    · rw [if_pos h0]
      rcases hf x with ⟨hp, hg⟩
      by_cases hx : p x = true
      · simp [List.filter_cons, hp, hx, hg]
      · simp [List.filter_cons, hp, hx]
    · rw [if_neg h0]
      by_cases hx : p x = true
      · simp [List.filter_cons, hx, ih]
      · simp [List.filter_cons, hx, ih]

theorem processNode_render (st : DedupState) (n : ToolNode)
    (h : strTruthy n.imageRef = none) :
    processNode st n = ⟨st.deduplicatedItems ++
      [⟨none, some n.nodeId, finalFileNameOf n, n.needsCropping.getD false,
        n.cropTransform, n.requiresImageDimensions.getD false⟩],
      st.imageRefMap⟩ := by
  simp [processNode, h]

theorem processNode_fill_alias (st : DedupState) (n : ToolNode) (r' : String)
    (h : strTruthy n.imageRef = some r')
    (hsuf : strTruthy n.filenameSuffix = none) (ex : DedupEntry)
    (hex : mapGet st.imageRefMap (dedupeKeyOf r' n.filenameSuffix) = some ex) :
    processNode st n = ⟨
      (if n.requiresImageDimensions.getD false then
        mapFirstWhere
          (fun it => it.imageRef == some r' && it.fileName == ex.canonicalFileName)
          (fun it => { it with requiresImageDimensions := true })
          st.deduplicatedItems
      else st.deduplicatedItems),
      objSet st.imageRefMap (dedupeKeyOf r' n.filenameSuffix)
        ⟨ex.canonicalFileName, ex.requestedFileNames ++ [finalFileNameOf n]⟩⟩ := by
  simp [processNode, h, hsuf, hex]

theorem processNode_fill_new (st : DedupState) (n : ToolNode) (r' : String)
    (h : strTruthy n.imageRef = some r')
    (hcond : strTruthy n.filenameSuffix ≠ none ∨
      mapGet st.imageRefMap (dedupeKeyOf r' n.filenameSuffix) = none) :
    processNode st n = ⟨st.deduplicatedItems ++
      [⟨some r', none, finalFileNameOf n, n.needsCropping.getD false,
        n.cropTransform, n.requiresImageDimensions.getD false⟩],
      objSet st.imageRefMap (dedupeKeyOf r' n.filenameSuffix)
        ⟨finalFileNameOf n, [finalFileNameOf n]⟩⟩ := by
  rcases hcond with hsuf | hmiss
  · match hs : strTruthy n.filenameSuffix with
    | none => exact absurd hs hsuf
    | some s =>
      match hg : mapGet st.imageRefMap (dedupeKeyOf r' n.filenameSuffix) with
      | none => simp [processNode, h, hs, hg]
      | some ex => simp [processNode, h, hs, hg]
  · match hs : strTruthy n.filenameSuffix with
    | none => simp [processNode, h, hs, hmiss]
    | some s =>
      match hg : mapGet st.imageRefMap (dedupeKeyOf r' n.filenameSuffix) with
      | none => simp [processNode, h, hs, hg]
      | some ex => simp [processNode, h, hs, hg]

theorem objSet_entries_prop {V : Type} (m : List (String × V)) (k : String) (v : V)
    (P : String × V → Prop) (hm : ∀ e ∈ m, P e) (hkv : P (k, v)) :
    ∀ e ∈ objSet m k v, P e := by
  by_cases hany : m.any (fun p => p.1 == k) = true
  · rw [objSet_present m k v hany]
    intro e he
    rw [List.mem_map] at he
    obtain ⟨p, hp, rfl⟩ := he
    by_cases hk : (p.1 == k) = true
    · rw [if_pos hk]
      exact hkv
    · rw [if_neg hk]
      exact hm p hp
  · rw [objSet, if_neg hany]
    intro e he
    rw [List.mem_append] at he
    rcases he with he | he
    · exact hm e he
    · rw [List.mem_singleton] at he
      rw [he]
      exact hkv

theorem objSet_decomp {V : Type} (mA mB : List (String × V)) (K k' : String)
    (cur v' : V) (P : String × V → Prop)
    (hne : k' ≠ K)
    (hAB : ∀ e ∈ mA ++ mB, P e) (hv : P (k', v')) :
    ∃ mA2 mB2, objSet (mA ++ (K, cur) :: mB) k' v' = mA2 ++ (K, cur) :: mB2 ∧
      ∀ e ∈ mA2 ++ mB2, P e := by
  by_cases hany : (mA ++ (K, cur) :: mB).any (fun p => p.1 == k') = true
  · rw [objSet_present _ _ _ hany]
    refine ⟨mA.map (fun p => if p.1 == k' then (k', v') else p),
      mB.map (fun p => if p.1 == k' then (k', v') else p), ?_, ?_⟩
    · rw [List.map_append, List.map_cons]
      have hK : ((K, cur).1 == k') = false := by
        simp
        exact fun h => hne h.symm
      rw [show (if ((K, cur).1 == k') = true then (k', v') else (K, cur)) = (K, cur) by
        rw [if_neg (by simp [hK])]]
    · intro e he
      rw [List.mem_append] at he
      have hcase : ∃ p, p ∈ mA ++ mB ∧
          e = (if p.1 == k' then (k', v') else p) := by
        rcases he with he | he
        · rw [List.mem_map] at he
          obtain ⟨p, hp, rfl⟩ := he
          exact ⟨p, List.mem_append_left _ hp, rfl⟩
        · rw [List.mem_map] at he
          obtain ⟨p, hp, rfl⟩ := he
          exact ⟨p, List.mem_append_right _ hp, rfl⟩
      obtain ⟨p, hp, rfl⟩ := hcase
      by_cases hk : (p.1 == k') = true
      · rw [if_pos hk]
        exact hv
      · rw [if_neg hk]
        exact hAB p hp
  · rw [objSet, if_neg hany]
    refine ⟨mA, mB ++ [(k', v')], ?_, ?_⟩
    · simp
    · intro e he
      rw [List.mem_append] at he
      rcases he with he | he
      · exact hAB e (List.mem_append_left _ he)
      · rw [List.mem_append] at he
        rcases he with he | he
        · exact hAB e (List.mem_append_right _ he)
        · rw [List.mem_singleton] at he
          rw [he]
          exact hv

theorem filter_ref_append_one (l : List DownloadItem) (it : DownloadItem)
    (r : String) :
    ((l ++ [it]).filter (fun x => x.imageRef == some r)).map (·.fileName) =
      ((l.filter (fun x => x.imageRef == some r)).map (·.fileName)) ++
        (if it.imageRef == some r then [it.fileName] else []) := by
  rw [List.filter_append, List.map_append]
  by_cases h : (it.imageRef == some r) = true
  · simp [List.filter_cons, h]
  · simp [List.filter_cons, h]

theorem dimsUpdate_preserves (r' : String) (c : String) (l : List DownloadItem)
    (rr : String) :
    (((mapFirstWhere
        (fun it => it.imageRef == some r' && it.fileName == c)
        (fun it => { it with requiresImageDimensions := true }) l).filter
          (fun x => x.imageRef == some rr)).map (·.fileName)) =
      ((l.filter (fun x => x.imageRef == some rr)).map (·.fileName)) := by
  apply filter_map_mapFirstWhere
  intro x
  constructor <;> rfl

theorem stepPre (r f1 : String) (st : DedupState) (n : ToolNode)
    (hf : ForeignTo r f1 n) (hinv : DedupInvPre r f1 st) :
    DedupInvPre r f1 (processNode st n) := by
  obtain ⟨hname, href⟩ := hf
  obtain ⟨hmap, hitems⟩ := hinv
  match hri : strTruthy n.imageRef with
  | none =>
    rw [processNode_render st n hri]
    refine ⟨hmap, ?_⟩
    rw [filter_ref_append_one]
    simp [hitems]
  | some r' =>
    obtain ⟨hr'ne, hkeyne⟩ := href r' hri
    match hs : strTruthy n.filenameSuffix with
    | none =>
      match hg : mapGet st.imageRefMap (dedupeKeyOf r' n.filenameSuffix) with
      | some ex =>
        rw [processNode_fill_alias st n r' hri hs ex hg]
        constructor
        · apply objSet_entries_prop _ _ _ _ hmap
          have hexmem := mapGet_mem _ _ _ hg
          exact ⟨hkeyne, (hmap _ hexmem).2⟩
        · by_cases hd : n.requiresImageDimensions.getD false = true
        
          · rw [if_pos hd]
            rw [dimsUpdate_preserves]
            exact hitems
          · rw [if_neg hd]
            exact hitems
      | none =>
        rw [processNode_fill_new st n r' hri (Or.inr hg)]
        constructor
        · apply objSet_entries_prop _ _ _ _ hmap
          exact ⟨hkeyne, hname⟩
        · rw [filter_ref_append_one]
          have : ((some r' == some r) : Bool) = false := by
            simp [hr'ne]
          simp [hitems, this]
    | some s =>
      rw [processNode_fill_new st n r' hri (Or.inl (by rw [hs]; intro h; cases h))]
      constructor
      · apply objSet_entries_prop _ _ _ _ hmap
        exact ⟨hkeyne, hname⟩
      · rw [filter_ref_append_one]
        have : ((some r' == some r) : Bool) = false := by
          simp [hr'ne]
        simp [hitems, this]

theorem stepMain (r f1 : String) (cur : DedupEntry) (st : DedupState) (n : ToolNode)
    (hf : ForeignTo r f1 n) (hinv : DedupInvMain r f1 cur st) :
    DedupInvMain r f1 cur (processNode st n) := by
  obtain ⟨hname, href⟩ := hf
  obtain ⟨⟨mA, mB, hmapeq, hprops⟩, hitems⟩ := hinv
  match hri : strTruthy n.imageRef with
  | none =>
    rw [processNode_render st n hri]
    refine ⟨⟨mA, mB, hmapeq, hprops⟩, ?_⟩
    rw [filter_ref_append_one]
    simp [hitems]
  | some r' =>
    obtain ⟨hr'ne, hkeyne⟩ := href r' hri
    match hs : strTruthy n.filenameSuffix with
    | none =>
      match hg : mapGet st.imageRefMap (dedupeKeyOf r' n.filenameSuffix) with
      | some ex =>
        rw [processNode_fill_alias st n r' hri hs ex hg]
        constructor
        · have hexne : ex.canonicalFileName ≠ f1 := by
            have hexmem := mapGet_mem _ _ _ hg
            rw [hmapeq] at hexmem
            rw [List.mem_append] at hexmem
            rcases hexmem with hm | hm
            · exact (hprops _ (List.mem_append_left _ hm)).2
            · rw [List.mem_cons] at hm
              rcases hm with hm | hm
              · exfalso
                exact hkeyne (congrArg Prod.fst hm)
              · exact (hprops _ (List.mem_append_right _ hm)).2
          rw [hmapeq]
          exact objSet_decomp mA mB _ _ cur _ _ hkeyne hprops ⟨hkeyne, hexne⟩
        · by_cases hd : n.requiresImageDimensions.getD false = true
          · rw [if_pos hd]
            rw [dimsUpdate_preserves]
            exact hitems
          · rw [if_neg hd]
            exact hitems
      | none =>
        rw [processNode_fill_new st n r' hri (Or.inr hg)]
        constructor
        · rw [hmapeq]
          exact objSet_decomp mA mB _ _ cur _ _ hkeyne hprops ⟨hkeyne, hname⟩
        · rw [filter_ref_append_one]
          have hb : ((some r' == some r) : Bool) = false := by
            simp [hr'ne]
          simp [hitems, hb]
    | some s =>
      rw [processNode_fill_new st n r' hri (Or.inl (by rw [hs]; intro h; cases h))]
      constructor
      · rw [hmapeq]
        exact objSet_decomp mA mB _ _ cur _ _ hkeyne hprops ⟨hkeyne, hname⟩
      · rw [filter_ref_append_one]
        have hb : ((some r' == some r) : Bool) = false := by
          simp [hr'ne]
        simp [hitems, hb]

theorem foldlPre (r f1 : String) (nodes : List ToolNode)
    (hf : ∀ n ∈ nodes, ForeignTo r f1 n) :
    ∀ st, DedupInvPre r f1 st → DedupInvPre r f1 (nodes.foldl processNode st) := by
  induction nodes with
  | nil => intro st h; exact h
  | cons n t ih =>
    intro st h
    rw [List.foldl_cons]
    exact ih (fun x hx => hf x (List.mem_cons_of_mem _ hx)) _
      (stepPre r f1 st n (hf n (List.mem_cons_self n t)) h)

theorem foldlMain (r f1 : String) (cur : DedupEntry) (nodes : List ToolNode)
    (hf : ∀ n ∈ nodes, ForeignTo r f1 n) :
    ∀ st, DedupInvMain r f1 cur st → DedupInvMain r f1 cur (nodes.foldl processNode st) := by
  induction nodes with
  | nil => intro st h; exact h
  | cons n t ih =>
    intro st h
    rw [List.foldl_cons]
    exact ih (fun x hx => hf x (List.mem_cons_of_mem _ hx)) _
      (stepMain r f1 cur st n (hf n (List.mem_cons_self n t)) h)

theorem map_upd_id {V : Type} (l : List (String × V)) (K : String) (v' : V)
    (h : ∀ e ∈ l, e.1 ≠ K) :
    l.map (fun p => if p.1 == K then (K, v') else p) = l := by
  have hc : ∀ a ∈ l, (fun p => if p.1 == K then (K, v') else p) a = id a := by
    intro a ha
    simp only [id]
    rw [if_neg (by simpa using h a ha)]
  rw [List.map_congr_left hc, List.map_id]

theorem objSet_update_mid {V : Type} (mA mB : List (String × V)) (K : String)
    (cur v' : V) (h : ∀ e ∈ mA ++ mB, e.1 ≠ K) :
    objSet (mA ++ (K, cur) :: mB) K v' = mA ++ (K, v') :: mB := by
  have hany : (mA ++ (K, cur) :: mB).any (fun p => p.1 == K) = true := by
    rw [List.any_eq_true]
    exact ⟨(K, cur), by simp, by simp⟩
  rw [objSet_present _ _ _ hany]
  rw [List.map_append, List.map_cons]
  rw [map_upd_id mA K v' (fun e he => h e (List.mem_append_left _ he))]
  rw [map_upd_id mB K v' (fun e he => h e (List.mem_append_right _ he))]
  rw [if_pos (by simp)]

theorem stepN1 (r f1 : String) (hr : r ≠ "") (nid : String) (c : Option Bool)
    (tt : Option FigTransform) (d : Option Bool) (st : DedupState)
    (hinv : DedupInvPre r f1 st) :
    DedupInvMain r f1 ⟨f1, [f1]⟩
      (processNode st ⟨nid, some r, f1, c, tt, d, none⟩) := by
  obtain ⟨hmap, hitems⟩ := hinv
  have hri : strTruthy (ToolNode.mk nid (some r) f1 c tt d none).imageRef = some r := by
    simp [strTruthy, hr]
  have hg : mapGet st.imageRefMap
      (dedupeKeyOf r (ToolNode.mk nid (some r) f1 c tt d none).filenameSuffix) = none := by
    rw [mapGet_eq_none_iff]
    intro e he
    exact (hmap e he).1
  rw [processNode_fill_new st _ r hri (Or.inr hg)]
  have hfn : finalFileNameOf (ToolNode.mk nid (some r) f1 c tt d none) = f1 := rfl
  constructor
  · rw [hfn]
    have habs := objSet_absent st.imageRefMap (dedupeKeyOf r none) ⟨f1, [f1]⟩
      (fun e he => (hmap e he).1)
    refine ⟨st.imageRefMap, [], ?_, ?_⟩
    · exact habs
    · intro e he
      rw [List.append_nil] at he
      exact hmap e he
  · rw [filter_ref_append_one]
    simp [hitems, hfn]

theorem stepN2 (r f1 f2 : String) (hr : r ≠ "") (nid : String) (c : Option Bool)
    (tt : Option FigTransform) (d : Option Bool) (st : DedupState)
    (hinv : DedupInvMain r f1 ⟨f1, [f1]⟩ st) :
    DedupInvMain r f1 ⟨f1, [f1, f2]⟩
      (processNode st ⟨nid, some r, f2, c, tt, d, none⟩) := by
  obtain ⟨⟨mA, mB, hmapeq, hprops⟩, hitems⟩ := hinv
  have hri : strTruthy (ToolNode.mk nid (some r) f2 c tt d none).imageRef = some r := by
    simp [strTruthy, hr]
  have hg : mapGet st.imageRefMap
      (dedupeKeyOf r (ToolNode.mk nid (some r) f2 c tt d none).filenameSuffix) =
      some ⟨f1, [f1]⟩ := by
    rw [hmapeq]
    exact mapGet_first_hit mA mB _ _
      (fun e he => (hprops e (List.mem_append_left _ he)).1)
  rw [processNode_fill_alias st _ r hri rfl ⟨f1, [f1]⟩ hg]
  have hfn : finalFileNameOf (ToolNode.mk nid (some r) f2 c tt d none) = f2 := rfl
  constructor
  · rw [hmapeq, hfn]
    rw [objSet_update_mid mA mB _ _ _ (fun e he => (hprops e he).1)]
    exact ⟨mA, mB, rfl, hprops⟩
  · by_cases hd : (ToolNode.mk nid (some r) f2 c tt d none).requiresImageDimensions.getD false = true
    · rw [if_pos hd]
      rw [dimsUpdate_preserves]
      exact hitems
    · rw [if_neg hd]
      exact hitems

theorem aliasesFor_of_inv (r f1 f2 : String) (st : DedupState)
    (hinv : DedupInvMain r f1 ⟨f1, [f1, f2]⟩ st) (hff : f1 ≠ f2) :
    aliasesFor st.imageRefMap f1 = [f2] := by
  obtain ⟨⟨mA, mB, hmapeq, hprops⟩, -⟩ := hinv
  rw [aliasesFor, hmapeq]
  rw [List.map_append, List.map_cons]
  rw [List.find?_append]
  have h1 : (mA.map (·.2)).find? (fun e => e.canonicalFileName == f1) = none := by
    rw [List.find?_eq_none]
    intro e he
    rw [List.mem_map] at he
    obtain ⟨p, hp, rfl⟩ := he
    simpa using (hprops p (List.mem_append_left _ hp)).2
  rw [h1]
  rw [List.find?_cons_of_pos _ (by simp)]
  simp only [Option.none_or]
  have h2 : (1 < ([f1, f2] : List String).length) = True := by simp
  rw [if_pos (by simp)]
  have hf2 : f2 ≠ f1 := Ne.symm hff
  simp [List.filter_cons, hf2]

/-- C3: when exactly two download items of one invocation reference the
same image source `r` with no filename suffix (every other item being
foreign to the pair), the deduplication pass emits exactly one download
item for `r` — under the first item's filename — and the report map records
both requested filenames, the second being listed as an alias of the
canonical first. -/
theorem downloadFigmaImages_dedup_pair (pre mid post : List ToolNode) (r f1 f2 : String)
    (nid1 nid2 : String) (c1 c2 : Option Bool) (tt1 tt2 : Option FigTransform)
    (d1 d2 : Option Bool)
    (hr : r ≠ "") (hff : f1 ≠ f2)
    (hforeign : ∀ n ∈ pre ++ mid ++ post, ForeignTo r f1 n)
    (st : DedupState)
    (hst : st = dedupNodes (pre ++ (⟨nid1, some r, f1, c1, tt1, d1, none⟩ : ToolNode) ::
      (mid ++ (⟨nid2, some r, f2, c2, tt2, d2, none⟩ : ToolNode) :: post))) :
    ((st.deduplicatedItems.filter (fun it => it.imageRef == some r)).map
      (·.fileName) = [f1]) ∧
    mapGet st.imageRefMap (dedupeKeyOf r none) = some ⟨f1, [f1, f2]⟩ ∧
    aliasesFor st.imageRefMap f1 = [f2] := by
  subst hst
  have hpre : ∀ n ∈ pre, ForeignTo r f1 n := fun n hn => hforeign n (by simp [hn])
  have hmid : ∀ n ∈ mid, ForeignTo r f1 n := fun n hn => hforeign n (by simp [hn])
  have hpost : ∀ n ∈ post, ForeignTo r f1 n := fun n hn => hforeign n (by simp [hn])
  rw [dedupNodes, List.foldl_append, List.foldl_cons, List.foldl_append, List.foldl_cons]
  have i0 : DedupInvPre r f1 ⟨[], []⟩ := ⟨fun e he => absurd he (by simp), rfl⟩
  have i1 := foldlPre r f1 pre hpre _ i0
  have i2 := stepN1 r f1 hr nid1 c1 tt1 d1 _ i1
  have i3 := foldlMain r f1 ⟨f1, [f1]⟩ mid hmid _ i2
  have i4 := stepN2 r f1 f2 hr nid2 c2 tt2 d2 _ i3
  have i5 := foldlMain r f1 ⟨f1, [f1, f2]⟩ post hpost _ i4
  obtain ⟨⟨mA, mB, hmapeq, hprops⟩, hitems⟩ := i5
  refine ⟨hitems, ?_, ?_⟩
  · rw [hmapeq]
    exact mapGet_first_hit mA mB _ _
      (fun e he => (hprops e (List.mem_append_left _ he)).1)
  · exact aliasesFor_of_inv r f1 f2 _ ⟨⟨mA, mB, hmapeq, hprops⟩, hitems⟩ hff

/-- Witness for C3: two items sharing `"refA"` under the names `"a.png"`
and `"b.png"`. -/
theorem downloadFigmaImages_dedup_pair_witness :
    (((dedupNodes [⟨"1:1", some "refA", "a.png", none, none, none, none⟩,
        ⟨"1:2", some "refA", "b.png", none, none, none, none⟩]).deduplicatedItems.filter
          (fun it => it.imageRef == some "refA")).map (·.fileName) = ["a.png"]) ∧
    mapGet (dedupNodes [⟨"1:1", some "refA", "a.png", none, none, none, none⟩,
        ⟨"1:2", some "refA", "b.png", none, none, none, none⟩]).imageRefMap
      (dedupeKeyOf "refA" none) = some ⟨"a.png", ["a.png", "b.png"]⟩ ∧
    aliasesFor (dedupNodes [⟨"1:1", some "refA", "a.png", none, none, none, none⟩,
        ⟨"1:2", some "refA", "b.png", none, none, none, none⟩]).imageRefMap "a.png" =
      ["b.png"] :=
  downloadFigmaImages_dedup_pair [] [] [] "refA" "a.png" "b.png" "1:1" "1:2" none none none none none none
    (by decide) (by decide) (fun n hn => absurd hn (by simp)) _ rfl

theorem attach_map_filterMap {α β : Type} (l : List α) (f : α → Option β) :
    ((l.attach.map fun c => f c.1).filterMap id) = l.filterMap f := by
  rw [show (l.attach.map fun c => f c.1) = l.map f from List.attach_map_val l f]
  rw [List.filterMap_map]
  rfl

theorem walkNode_eq (opts : WalkOptions) (d : ℕ) (i t : String) (cs : List RawNode) :
    walkNode opts d (.mk i t cs) =
      if (match opts.maxDepth with | some k => decide (k < d) | none => false) then none
      else if !opts.keep (.mk i t cs) then none
      else some (.mk i (cs.filterMap (walkNode opts (d + 1)))) := by
  rw [walkNode]
  rw [attach_map_filterMap]

theorem subtreeIds_eq (i t : String) (cs : List RawNode) :
    subtreeIds (.mk i t cs) = i :: (cs.map subtreeIds).flatten := by
  rw [subtreeIds]
  rw [show (cs.attach.map fun c => subtreeIds c.1) = cs.map subtreeIds from
    List.attach_map_val cs subtreeIds]

theorem outIds_eq (i : String) (cs : List OutNode) :
    outIds (.mk i cs) = i :: (cs.map outIds).flatten := by
  rw [outIds]
  rw [show (cs.attach.map fun c => outIds c.1) = cs.map outIds from
    List.attach_map_val cs outIds]

theorem walkNode_keep_false (opts : WalkOptions) (d : ℕ) (n : RawNode)
    (h : opts.keep n = false) : walkNode opts d n = none := by
  cases n with
  | mk i t cs =>
    rw [walkNode_eq]
    by_cases hb : (match opts.maxDepth with
      | some k => decide (k < d)
      | none => false) = true
    · rw [if_pos hb]
    · rw [if_neg hb, if_pos (by rw [h]; rfl)]

theorem walk_outIds_subset (opts : WalkOptions) :
    ∀ t : RawNode, ∀ d : ℕ, ∀ x ∈ outIdsOpt (walkNode opts d t), x ∈ subtreeIds t := by
  intro t
  induction t using rawNode_ind with
  | h i ty cs ih =>
    intro d x hx
    rw [walkNode_eq] at hx
    by_cases hb : (match opts.maxDepth with
      | some k => decide (k < d)
      | none => false) = true
    · rw [if_pos hb] at hx
      cases hx
    · rw [if_neg hb] at hx
      by_cases hk : (!opts.keep (RawNode.mk i ty cs)) = true
      · rw [if_pos hk] at hx
        cases hx
      · rw [if_neg hk] at hx
        rw [outIdsOpt, outIds_eq] at hx
        rw [subtreeIds_eq]
        rcases List.mem_cons.mp hx with hx | hx
        · exact List.mem_cons.mpr (Or.inl hx)
        · refine List.mem_cons.mpr (Or.inr ?_)
          rw [List.mem_flatten] at hx
          obtain ⟨l, hl, hxl⟩ := hx
          rw [List.mem_map] at hl
          obtain ⟨o, ho, rfl⟩ := hl
          rw [List.mem_filterMap] at ho
          obtain ⟨c, hc, hco⟩ := ho
          have hsub : x ∈ subtreeIds c := by
            have := ih c hc (d + 1) x
            rw [hco] at this
            exact this hxl
          rw [List.mem_flatten]
          exact ⟨subtreeIds c, List.mem_map.mpr ⟨c, hc, rfl⟩, hsub⟩

theorem subtreeIds_subset_of_subtree (x c : RawNode) (h : Subtree x c) :
    ∀ s ∈ subtreeIds x, s ∈ subtreeIds c := by
  induction h with
  | refl => exact fun s hs => hs
  | @child c' t' hc _ ih =>
    intro s hs
    cases t' with
    | mk i ty cs =>
      rw [subtreeIds_eq]
      refine List.mem_cons.mpr (Or.inr ?_)
      rw [List.mem_flatten]
      exact ⟨subtreeIds c', List.mem_map.mpr ⟨c', hc, rfl⟩, ih s hs⟩

theorem excluded_in_children (opts : WalkOptions) (s : String) (c : RawNode) :
    ∀ (cs : List RawNode) (d : ℕ),
      ((cs.map subtreeIds).flatten).Nodup → c ∈ cs → s ∈ subtreeIds c →
      (∀ d', s ∉ outIdsOpt (walkNode opts d' c)) →
      s ∉ ((cs.filterMap (walkNode opts d)).map outIds).flatten := by
  intro cs
  induction cs with
  | nil => intro d _ hc; cases hc
  | cons c0 cs' ih =>
    intro d hnd hc hsc hout hmem
    rw [List.map_cons, List.flatten_cons] at hnd
    rw [List.nodup_append] at hnd
    obtain ⟨hnd0, hndrest, hdisj⟩ := hnd
    have hsplit : s ∈ outIdsOpt (walkNode opts d c0) ∨
        s ∈ ((cs'.filterMap (walkNode opts d)).map outIds).flatten := by
      rw [List.filterMap_cons] at hmem
      cases hw : walkNode opts d c0 with
      | none =>
        rw [hw] at hmem
        exact Or.inr hmem
      | some o =>
        rw [hw] at hmem
        rw [List.map_cons, List.flatten_cons, List.mem_append] at hmem
        rcases hmem with hmem | hmem
        · exact Or.inl hmem
        · exact Or.inr hmem
    have hs0 : s ∈ outIdsOpt (walkNode opts d c0) → s ∈ subtreeIds c0 :=
      fun hx => walk_outIds_subset opts c0 d s hx
    rcases List.mem_cons.mp hc with rfl | hc'
    · rcases hsplit with hx | hx
      · exact hout d hx
      · have hflat : s ∈ (cs'.map subtreeIds).flatten := by
          rw [List.mem_flatten] at hx ⊢
          obtain ⟨l, hl, hsl⟩ := hx
          rw [List.mem_map] at hl
          obtain ⟨o, ho, rfl⟩ := hl
          rw [List.mem_filterMap] at ho
          obtain ⟨c1, hc1, hc1o⟩ := ho
          refine ⟨subtreeIds c1, List.mem_map.mpr ⟨c1, hc1, rfl⟩, ?_⟩
          have := walk_outIds_subset opts c1 d s
          rw [hc1o] at this
          exact this hsl
        exact hdisj hsc hflat
    · rcases hsplit with hx | hx
      · exact hdisj (hs0 hx) (by
          rw [List.mem_flatten]
          exact ⟨subtreeIds c, List.mem_map.mpr ⟨c, hc', rfl⟩, hsc⟩)
      · exact ih d hndrest hc' hsc hout hx

theorem walk_excludes_rejected_subtree_aux (opts : WalkOptions) (x : RawNode)
    (hreject : opts.keep x = false) :
    ∀ t : RawNode, Subtree x t → ∀ d : ℕ, (subtreeIds t).Nodup →
      ∀ s ∈ subtreeIds x, s ∉ outIdsOpt (walkNode opts d t) := by
  intro t hsub
  induction hsub with
  | refl =>
    intro d _ s _ hmem
    rw [walkNode_keep_false opts d x hreject] at hmem
    cases hmem
  | @child c t' hc hsubxc ih =>
    cases t' with
    | mk i0 ty cs =>
      intro d hnodup s hs hmem
      rw [walkNode_eq] at hmem
      by_cases hb : (match opts.maxDepth with
        | some k => decide (k < d)
        | none => false) = true
      · rw [if_pos hb] at hmem
        cases hmem
      · rw [if_neg hb] at hmem
        by_cases hk : (!opts.keep (RawNode.mk i0 ty cs)) = true
        · rw [if_pos hk] at hmem
          cases hmem
        · rw [if_neg hk] at hmem
          rw [subtreeIds_eq] at hnodup
          rw [List.nodup_cons] at hnodup
          obtain ⟨hi0, hndflat⟩ := hnodup
          have hsc : s ∈ subtreeIds c := subtreeIds_subset_of_subtree x c hsubxc s hs
          rw [outIdsOpt, outIds_eq] at hmem
          rcases List.mem_cons.mp hmem with rfl | hmem
          · exact hi0 (by
              rw [List.mem_flatten]
              exact ⟨subtreeIds c, List.mem_map.mpr ⟨c, hc, rfl⟩, hsc⟩)
          · have hnc : (subtreeIds c).Nodup := by
              rw [List.nodup_flatten] at hndflat
              exact hndflat.1 (subtreeIds c) (List.mem_map.mpr ⟨c, hc, rfl⟩)
            exact excluded_in_children opts s c cs (d + 1) hndflat hc hsc
              (fun d' => ih d' hnc s hs) hmem

/-- C9: a node the `nodeFilter` rejects is excluded from the traversal
output together with its entire subtree — no id from the rejected node's
subtree occurs among the output ids (node ids assumed unique in the input
tree), even when a descendant would individually pass the filter. -/
theorem walk_rejecting_filter_excludes_subtree (opts : WalkOptions)
    (t x : RawNode) (hsub : Subtree x t) (hreject : opts.keep x = false)
    (hnodup : (subtreeIds t).Nodup) :
    ∀ s ∈ subtreeIds x, s ∉ outIdsOpt (walkNode opts 0 t) :=
  walk_excludes_rejected_subtree_aux opts x hreject t hsub 0 hnodup

/-- Witness for C9: the frame `"g"` passes the filter but sits below the
rejected text node `"x"`, so it is excluded. -/
theorem walk_rejecting_filter_excludes_subtree_witness :
    "g" ∉ outIdsOpt (walkNode ⟨none, fun n => n.typ != "TEXT"⟩ 0
      (.mk "root" "FRAME" [.mk "x" "TEXT" [.mk "g" "FRAME" []],
        .mk "y" "FRAME" []])) := by
  apply walk_rejecting_filter_excludes_subtree
    ⟨none, fun n => n.typ != "TEXT"⟩
    (.mk "root" "FRAME" [.mk "x" "TEXT" [.mk "g" "FRAME" []], .mk "y" "FRAME" []])
    (.mk "x" "TEXT" [.mk "g" "FRAME" []])
  · exact Subtree.child (List.mem_cons_self _ _) Subtree.refl
  · rfl
  · simp only [subtreeIds_eq, List.map_cons, List.map_nil, List.flatten_cons,
      List.flatten_nil]
    decide
  · simp only [subtreeIds_eq, List.map_cons, List.map_nil, List.flatten_cons,
      List.flatten_nil]
    decide

/-- C8 (amended): under default options the shorthand generator returns no
value when all four edges are 0; the single value when all four are equal;
the two-value form when top = bottom and right = left; the three-value
form when right = left but top differs from bottom; and the four-value
form otherwise (right differs from left). -/
theorem generateCSSShorthand_cases (v : EdgeValues) :
    ((JsNumber.eqv v.top 0 ∧ JsNumber.eqv v.right 0 ∧ JsNumber.eqv v.bottom 0 ∧
        JsNumber.eqv v.left 0) →
      generateCSSShorthandDefault v = none) ∧
    (¬(JsNumber.eqv v.top 0 ∧ JsNumber.eqv v.right 0 ∧ JsNumber.eqv v.bottom 0 ∧
        JsNumber.eqv v.left 0) →
      (JsNumber.eqv v.top v.right ∧ JsNumber.eqv v.right v.bottom ∧
        JsNumber.eqv v.bottom v.left) →
      generateCSSShorthandDefault v = some (decStr v.top ++ "px")) ∧
    (¬(JsNumber.eqv v.top 0 ∧ JsNumber.eqv v.right 0 ∧ JsNumber.eqv v.bottom 0 ∧
        JsNumber.eqv v.left 0) →
      ¬(JsNumber.eqv v.top v.right ∧ JsNumber.eqv v.right v.bottom ∧
        JsNumber.eqv v.bottom v.left) →
      JsNumber.eqv v.right v.left → JsNumber.eqv v.top v.bottom →
      generateCSSShorthandDefault v =
        some (decStr v.top ++ "px " ++ decStr v.right ++ "px")) ∧
    (¬(JsNumber.eqv v.top 0 ∧ JsNumber.eqv v.right 0 ∧ JsNumber.eqv v.bottom 0 ∧
        JsNumber.eqv v.left 0) →
      ¬(JsNumber.eqv v.top v.right ∧ JsNumber.eqv v.right v.bottom ∧
        JsNumber.eqv v.bottom v.left) →
      JsNumber.eqv v.right v.left → ¬JsNumber.eqv v.top v.bottom →
      generateCSSShorthandDefault v =
        some (decStr v.top ++ "px " ++ decStr v.right ++ "px " ++
          decStr v.bottom ++ "px")) ∧
    (¬(JsNumber.eqv v.top 0 ∧ JsNumber.eqv v.right 0 ∧ JsNumber.eqv v.bottom 0 ∧
        JsNumber.eqv v.left 0) →
      ¬(JsNumber.eqv v.top v.right ∧ JsNumber.eqv v.right v.bottom ∧
        JsNumber.eqv v.bottom v.left) →
      ¬JsNumber.eqv v.right v.left →
      generateCSSShorthandDefault v =
        some (decStr v.top ++ "px " ++ decStr v.right ++ "px " ++
          decStr v.bottom ++ "px " ++ decStr v.left ++ "px")) := by
  refine ⟨?_, ?_, ?_, ?_, ?_⟩
  · intro hz
    rw [generateCSSShorthandDefault, generateCSSShorthand,
      if_pos (by exact ⟨rfl, hz.1, hz.2.1, hz.2.2.1, hz.2.2.2⟩)]
  · intro hz he
    rw [generateCSSShorthandDefault, generateCSSShorthand,
      if_neg (by intro h; exact hz ⟨h.2.1, h.2.2.1, h.2.2.2.1, h.2.2.2.2⟩),
      if_pos he]
  · intro hz he hrl htb
    rw [generateCSSShorthandDefault, generateCSSShorthand,
      if_neg (by intro h; exact hz ⟨h.2.1, h.2.2.1, h.2.2.2.1, h.2.2.2.2⟩),
      if_neg he, if_pos hrl, if_pos htb]
    simp [String.append_assoc]
  · intro hz he hrl htb
    rw [generateCSSShorthandDefault, generateCSSShorthand,
      if_neg (by intro h; exact hz ⟨h.2.1, h.2.2.1, h.2.2.2.1, h.2.2.2.2⟩),
      if_neg he, if_pos hrl, if_neg htb]
    simp [String.append_assoc]
  · intro hz he hrl
    rw [generateCSSShorthandDefault, generateCSSShorthand,
      if_neg (by intro h; exact hz ⟨h.2.1, h.2.2.1, h.2.2.2.1, h.2.2.2.2⟩),
      if_neg he, if_neg hrl]
    simp [String.append_assoc]

/-- Witness for C8: the spec's four examples plus the three-value input. -/
theorem generateCSSShorthand_cases_witness :
    generateCSSShorthandDefault ⟨0, 0, 0, 0⟩ = none ∧
    generateCSSShorthandDefault ⟨10, 10, 10, 10⟩ = some "10px" ∧
    generateCSSShorthandDefault ⟨10, 20, 10, 20⟩ = some "10px 20px" ∧
    generateCSSShorthandDefault ⟨10, 20, 30, 20⟩ = some "10px 20px 30px" ∧
    generateCSSShorthandDefault ⟨10, 20, 30, 40⟩ = some "10px 20px 30px 40px" := by
  refine ⟨?_, ?_, ?_, ?_, ?_⟩
  · exact (generateCSSShorthand_cases ⟨0, 0, 0, 0⟩).1 (by decide)
  · have h := (generateCSSShorthand_cases ⟨10, 10, 10, 10⟩).2.1 (by decide) (by decide)
    rw [h]
    decide
  · have h := (generateCSSShorthand_cases ⟨10, 20, 10, 20⟩).2.2.1 (by decide) (by decide)
      (by decide) (by decide)
    rw [h]
    decide
  · have h := (generateCSSShorthand_cases ⟨10, 20, 30, 20⟩).2.2.2.1 (by decide) (by decide)
      (by decide) (by decide)
    rw [h]
    decide
  · have h := (generateCSSShorthand_cases ⟨10, 20, 30, 40⟩).2.2.2.2 (by decide) (by decide)
      (by decide)
    rw [h]
    decide

/-- C7: a linear gradient whose first two handles are (0,0) and (1,0)
produces `linear-gradient(90deg, ...)` (for any atan2 table that is exact
at (0,1), as `Math.atan2` is); and in general the CSS angle is
`round(atan2deg(dy, dx) + 90)` for the direction vector between the first
two handles, while each stop position is re-parameterized onto the span
where the extended handle line meets the unit-square boundary
(`specStopPercent`, written from the spec's words). -/
theorem linear_gradient_angle_and_reparam :
    (∀ (att : JsNumber → JsNumber → JsNumber) (stops : List ColorStop),
      att 0 1 = 0 →
      ∃ rest, convertGradientToCss att (linearPaintWith ⟨0, 0⟩ ⟨1, 0⟩ stops) =
        "linear-gradient(90deg, " ++ rest) ∧
    (∀ (att : JsNumber → JsNumber → JsNumber) (stops : List ColorStop)
      (s e : Vec2) (t0 t1 : JsNumber),
      ¬ JsNumber.eqv ((e.x - s.x) * (e.x - s.x) + (e.y - s.y) * (e.y - s.y)) 0 →
      findExtendedLineIntersections s e = [t0, t1] →
      mapLinearGradient att stops s e =
        ⟨String.intercalate ", " (stops.map fun st =>
            formatRGBAColor st.color 1 ++ " " ++
              intStr (specStopPercent t0 t1 st.position) ++ "%"),
          intStr (jsRound (att (e.y - s.y) (e.x - s.x) + 90)) ++ "deg"⟩) :=
  ⟨fun att stops hatt => c7part1 att stops hatt,
   fun att stops s e t0 t1 hnz hlen => mapLinearGradient_spec att stops s e t0 t1 hnz hlen⟩

/-- Witness for C7: the (0,0)-(1,0) handles with two concrete stops, and
the general formula at the concrete boundary span [0, 1]. -/
theorem linear_gradient_angle_and_reparam_witness :
    (∃ rest, convertGradientToCss (fun _ _ => 0)
      (linearPaintWith ⟨0, 0⟩ ⟨1, 0⟩ [⟨0, ⟨1, 0, 0, 1⟩⟩, ⟨1, ⟨0, 0, 1, 1⟩⟩]) =
        "linear-gradient(90deg, " ++ rest) ∧
    mapLinearGradient (fun _ _ => 0) [⟨0, ⟨1, 0, 0, 1⟩⟩, ⟨1, ⟨0, 0, 1, 1⟩⟩]
        ⟨0, 0⟩ ⟨1, 0⟩ =
      ⟨String.intercalate ", "
        ([⟨0, ⟨1, 0, 0, 1⟩⟩, ⟨1, ⟨0, 0, 1, 1⟩⟩].map fun st : ColorStop =>
          formatRGBAColor st.color 1 ++ " " ++
            intStr (specStopPercent ⟨0, 10 ^ 6⟩ ⟨10 ^ 6, 10 ^ 6⟩ st.position) ++ "%"),
        intStr (jsRound ((fun _ _ => (0 : JsNumber)) ((Vec2.mk 1 0).y - (Vec2.mk 0 0).y)
          ((Vec2.mk 1 0).x - (Vec2.mk 0 0).x) + 90)) ++ "deg"⟩ :=
  ⟨linear_gradient_angle_and_reparam.1 (fun _ _ => 0) _ rfl,
   linear_gradient_angle_and_reparam.2 (fun _ _ => 0) _ ⟨0, 0⟩ ⟨1, 0⟩
     ⟨0, 10 ^ 6⟩ ⟨10 ^ 6, 10 ^ 6⟩ (by decide) (by decide)⟩

/-- Witness for C10: the prefix `"fill"`, a constant draw supply, and the
fresh registry. -/
theorem generateVarId_shape_and_no_collision_check_witness :
    (∃ sfx : String, generateVarId "fill" (fun _ => 0) = "fill" ++ "_" ++ sfx ∧
      sfx.length = 6 ∧ ∀ c ∈ sfx.toList, c ∈ varIdChars) ∧
    findOrCreateVar (V := ℕ) (fun _ _ => 0) (emptyRegState ℕ) 0 "fill" =
      (generateVarId "fill" ((fun _ _ => 0) (emptyRegState ℕ).used),
        ⟨objSet (emptyRegState ℕ).styles
          (generateVarId "fill" ((fun _ _ => 0) (emptyRegState ℕ).used)) 0,
          (emptyRegState ℕ).used + 1⟩) :=
  ⟨generateVarId_shape_and_no_collision_check.1 "fill" (fun _ => 0),
   generateVarId_shape_and_no_collision_check.2 ℕ inferInstance (fun _ _ => 0)
     (emptyRegState ℕ) 0 "fill" rfl⟩



/-- Witness for C2: a two-item batch with one unresolved URL, and a crop
whose Sharp processing fails. -/
theorem downloadImages_partial_failure_witness :
    (downloadImages c2wEnv "/x" c2wItems =
      .ok (okValues (fillDownloadsOf c2wEnv "/x" c2wItems) ++
        okValues (pngDownloadsOf c2wEnv "/x" c2wItems) ++
        okValues (svgDownloadsOf c2wEnv "/x" c2wItems)) ∧
      (okValues (fillDownloadsOf c2wEnv "/x" c2wItems) ++
        okValues (pngDownloadsOf c2wEnv "/x" c2wItems) ++
        okValues (svgDownloadsOf c2wEnv "/x" c2wItems)).length ≤ c2wItems.length) ∧
    (∃ r, downloadAndProcessImage ⟨fun _ => .ok ⟨8, 8⟩, fun _ => false⟩ "a.png" "/x"
        "u" true (some [[1, 0, 0], [0, 1, 0]]) false = .ok r ∧
      r.filePath = pathJoin "/x" "a.png" ∧ r.finalDimensions = ⟨8, 8⟩) :=
  ⟨downloadImages_partial_failure.1 c2wEnv "/x" c2wItems (by decide) (by decide),
   downloadImages_partial_failure.2 ⟨fun _ => .ok ⟨8, 8⟩, fun _ => false⟩ "a.png" "/x" "u"
     [[1, 0, 0], [0, 1, 0]] ⟨8, 8⟩ false rfl rfl⟩

theorem find?_none_val_notin {V : Type} [DecidableEq V]
    (l : List (String × V)) (v : V)
    (h : l.find? (fun p => decide (p.2 = v)) = none) : v ∉ l.map Prod.snd := by
  rw [List.find?_eq_none] at h
  intro hmem
  rw [List.mem_map] at hmem
  obtain ⟨p, hp, hpv⟩ := hmem
  exact h p hp (by simp [hpv])

theorem step_spec {V : Type} [DecidableEq V] (supply : ℕ → Fin 6 → Fin 36)
    (s : RegState V) (v : V) (pfx : String)
    (hinv : RegInv s.styles) (hfresh : stepFresh supply s v pfx = true) :
    RegInv (findOrCreateVar supply s v pfx).2.styles ∧
    s.styles <+: (findOrCreateVar supply s v pfx).2.styles ∧
    lookupVal (findOrCreateVar supply s v pfx).2.styles v =
      some (findOrCreateVar supply s v pfx).1 := by
  cases hfind : s.styles.find? (fun p => decide (p.2 = v)) with
  | some p =>
    simp only [findOrCreateVar, hfind]
    exact ⟨hinv, List.prefix_refl _, by rw [lookupVal, hfind]; rfl⟩
  | none =>
    have hnotkey : ∀ e ∈ s.styles, e.1 ≠ generateVarId pfx (supply s.used) := by
      rw [stepFresh, hfind] at hfresh
      rw [Bool.not_eq_eq_eq_not, Bool.not_true, List.any_eq_false] at hfresh
      intro e he
      simpa using hfresh e he
    have hobj := objSet_absent s.styles (generateVarId pfx (supply s.used)) v hnotkey
    simp only [findOrCreateVar, hfind, hobj]
    refine ⟨⟨?_, ?_⟩, ⟨[(generateVarId pfx (supply s.used), v)], rfl⟩, ?_⟩
    · rw [List.map_append, List.nodup_append]
      refine ⟨hinv.1, List.nodup_singleton _, ?_⟩
      intro a ha hb
      rw [List.mem_map] at ha
      obtain ⟨e, he, rfl⟩ := ha
      simp only [List.map_cons, List.map_nil, List.mem_singleton] at hb
      exact hnotkey e he hb
    · rw [List.map_append, List.nodup_append]
      refine ⟨hinv.2, List.nodup_singleton _, ?_⟩
      intro a ha hb
      simp only [List.map_cons, List.map_nil, List.mem_singleton] at hb
      rw [hb] at ha
      exact find?_none_val_notin s.styles v hfind ha
    · rw [lookupVal, List.find?_append, hfind]
      simp

theorem lookupVal_mono {V : Type} [DecidableEq V] (l1 l2 : List (String × V))
    (v : V) (i : String) (hpre : l1 <+: l2) (h : lookupVal l1 v = some i) :
    lookupVal l2 v = some i := by
  obtain ⟨t, rfl⟩ := hpre
  rw [lookupVal, Option.map_eq_some'] at h
  obtain ⟨p, hp, hpi⟩ := h
  rw [lookupVal, List.find?_append, hp]
  simp [hpi]

theorem runFresh_append {V : Type} [DecidableEq V] (supply : ℕ → Fin 6 → Fin 36) :
    ∀ (l1 l2 : List (V × String)) (s : RegState V),
      runFresh supply (l1 ++ l2) s = true →
      runFresh supply l1 s = true ∧
        runFresh supply l2 (runFindOrCreate supply l1 s).2 = true := by
  intro l1
  induction l1 with
  | nil => intro l2 s h; exact ⟨rfl, h⟩
  | cons c rest ih =>
    intro l2 s h
    obtain ⟨v, pfx⟩ := c
    rw [List.cons_append, runFresh, Bool.and_eq_true] at h
    obtain ⟨hstep, htail⟩ := h
    have := ih l2 (findOrCreateVar supply s v pfx).2 htail
    refine ⟨?_, ?_⟩
    · rw [runFresh, Bool.and_eq_true]
      exact ⟨hstep, this.1⟩
    · rw [runFindOrCreate]
      exact this.2

theorem run_append {V : Type} [DecidableEq V] (supply : ℕ → Fin 6 → Fin 36) :
    ∀ (l1 l2 : List (V × String)) (s : RegState V),
      runFindOrCreate supply (l1 ++ l2) s =
        ((runFindOrCreate supply l1 s).1 ++
          (runFindOrCreate supply l2 (runFindOrCreate supply l1 s).2).1,
          (runFindOrCreate supply l2 (runFindOrCreate supply l1 s).2).2) := by
  intro l1
  induction l1 with
  | nil => intro l2 s; rw [runFindOrCreate]; rfl
  | cons c rest ih =>
    intro l2 s
    obtain ⟨v, pfx⟩ := c
    rw [List.cons_append, runFindOrCreate, runFindOrCreate, ih]
    simp

theorem run_spec {V : Type} [DecidableEq V] (supply : ℕ → Fin 6 → Fin 36) :
    ∀ (calls : List (V × String)) (s : RegState V),
      RegInv s.styles → runFresh supply calls s = true →
      RegInv (runFindOrCreate supply calls s).2.styles ∧
      s.styles <+: (runFindOrCreate supply calls s).2.styles ∧
      (∀ p ∈ calls.zip (runFindOrCreate supply calls s).1,
        lookupVal (runFindOrCreate supply calls s).2.styles p.1.1 = some p.2) ∧
      (∀ c ∈ calls, ∃ i,
        lookupVal (runFindOrCreate supply calls s).2.styles c.1 = some i) := by
  intro calls
  induction calls with
  | nil =>
    intro s hinv _
    exact ⟨hinv, List.prefix_refl _, fun p hp => absurd hp (by simp),
      fun c hc => absurd hc (by simp)⟩
  | cons c rest ih =>
    intro s hinv hfresh
    obtain ⟨v, pfx⟩ := c
    rw [runFresh, Bool.and_eq_true] at hfresh
    obtain ⟨hstep, hrest⟩ := hfresh
    have hs := step_spec supply s v pfx hinv hstep
    have hr := ih (findOrCreateVar supply s v pfx).2 hs.1 hrest
    rw [runFindOrCreate]
    refine ⟨hr.1, hs.2.1.trans hr.2.1, ?_, ?_⟩
    · intro p hp
      rw [List.zip_cons_cons, List.mem_cons] at hp
      rcases hp with rfl | hp
      · exact lookupVal_mono _ _ _ _ hr.2.1 hs.2.2
      · exact hr.2.2.1 p hp
    · intro d hd
      rw [List.mem_cons] at hd
      rcases hd with rfl | hd
      · exact ⟨_, lookupVal_mono _ _ _ _ hr.2.1 hs.2.2⟩
      · exact hr.2.2.2 d hd

theorem filter_val_nil {V : Type} [DecidableEq V] (l : List (String × V)) (v : V)
    (h : v ∉ l.map Prod.snd) : l.filter (fun p => decide (p.2 = v)) = [] := by
  rw [List.filter_eq_nil_iff]
  intro p hp
  simp only [decide_eq_true_eq]
  intro hpv
  exact h (List.mem_map.mpr ⟨p, hp, hpv⟩)

theorem filter_val_len_le_one {V : Type} [DecidableEq V] (l : List (String × V))
    (v : V) (hnd : (l.map Prod.snd).Nodup) :
    (l.filter (fun p => decide (p.2 = v))).length ≤ 1 := by
  induction l with
  | nil => simp
  | cons x t ih =>
    rw [List.map_cons, List.nodup_cons] at hnd
    by_cases hx : x.2 = v
    · rw [List.filter_cons_of_pos (by simp [hx])]
      have ht : t.filter (fun p => decide (p.2 = v)) = [] := by
        apply filter_val_nil
        rw [← hx]
        exact hnd.1
      rw [ht]
      simp
    · rw [List.filter_cons_of_neg (by simp [hx])]
      exact ih hnd.2

theorem filter_val_len_ge_one {V : Type} [DecidableEq V] (l : List (String × V))
    (v : V) (i : String) (h : lookupVal l v = some i) :
    1 ≤ (l.filter (fun p => decide (p.2 = v))).length := by
  rw [lookupVal, Option.map_eq_some'] at h
  obtain ⟨p, hp, _⟩ := h
  have hpl := List.mem_of_find?_eq_some hp
  have hpred := List.find?_some hp
  have : p ∈ l.filter (fun p => decide (p.2 = v)) := List.mem_filter.mpr ⟨hpl, hpred⟩
  exact List.length_pos.mpr (fun hnil => by rw [hnil] at this; cases this)

/-- C1 (amended): provided no freshly generated id collides with a key
already present (`runFresh`; the generator itself never checks), the
`findOrCreateVar` calls of a traversal, starting from the empty registry,
hand every pair of calls with structurally equal values the same id, leave
exactly one registry entry per requested value, and only ever append to
the registry (each intermediate registry is a prefix of the next). -/
theorem findOrCreateVar_dedup_fresh (V : Type) [inst : DecidableEq V]
    (supply : ℕ → Fin 6 → Fin 36) (calls : List (V × String))
    (hfresh : runFresh supply calls (emptyRegState V) = true) :
    (∀ p ∈ calls.zip (runIds supply calls), ∀ q ∈ calls.zip (runIds supply calls),
      p.1.1 = q.1.1 → p.2 = q.2) ∧
    (∀ v ∈ calls.map Prod.fst,
      ((runStyles supply calls).filter (fun p => decide (p.2 = v))).length = 1) ∧
    (∀ k : ℕ, stylesAfter supply calls k <+: stylesAfter supply calls (k + 1)) := by
  have hinv0 : RegInv (V := V) (emptyRegState V).styles :=
    ⟨List.nodup_nil, List.nodup_nil⟩
  have hmain := run_spec supply calls (emptyRegState V) hinv0 hfresh
  refine ⟨?_, ?_, ?_⟩
  · intro p hp q hq hval
    have h1 := hmain.2.2.1 p hp
    have h2 := hmain.2.2.1 q hq
    rw [hval] at h1
    rw [h1] at h2
    exact Option.some.inj h2
  · intro v hv
    rw [List.mem_map] at hv
    obtain ⟨c, hc, rfl⟩ := hv
    obtain ⟨i, hi⟩ := hmain.2.2.2 c hc
    have hge := filter_val_len_ge_one
      (runFindOrCreate supply calls (emptyRegState V)).2.styles c.1 i hi
    have hle := filter_val_len_le_one
      (runFindOrCreate supply calls (emptyRegState V)).2.styles c.1 hmain.1.2
    rw [runStyles]
    omega
  · intro k
    have hsplit1 := runFresh_append supply (calls.take (k + 1)) (calls.drop (k + 1))
      (emptyRegState V) (by rw [List.take_append_drop]; exact hfresh)
    rw [stylesAfter, stylesAfter, List.take_succ]
    cases hget : calls[k]? with
    | none =>
      simp only [hget, Option.toList_none, List.append_nil]
      exact List.prefix_refl _
    | some c =>
      simp only [hget, Option.toList_some]
      rw [run_append]
      have htk : calls.take (k + 1) = calls.take k ++ [c] := by
        rw [List.take_succ, hget]
        rfl
      have hfreshTake : runFresh supply (calls.take k ++ [c]) (emptyRegState V) = true := by
        rw [← htk]
        exact hsplit1.1
      have hsplit2 := runFresh_append supply (calls.take k) [c] (emptyRegState V) hfreshTake
      have hInvK := (run_spec supply (calls.take k) (emptyRegState V) hinv0 hsplit2.1).1
      obtain ⟨v, pfx⟩ := c
      have hfc := hsplit2.2
      rw [runFresh, Bool.and_eq_true] at hfc
      have hstep := step_spec supply
        (runFindOrCreate supply (calls.take k) (emptyRegState V)).2 v pfx hInvK hfc.1
      rw [runFindOrCreate, runFindOrCreate]
      exact hstep.2.1



/-- C1 counterexample: with a draw supply that repeats its first id, the
second call's freshly generated id overwrites the first call's entry, so
the first and third calls — with structurally equal values — receive
different ids, and an entry of the registry is overwritten rather than
appended. -/
theorem findOrCreateVar_collision_counterexample :
    (c1Calls.getD 0 (0, "")).1 = (c1Calls.getD 2 (0, "")).1 ∧
    (runIds c1Supply c1Calls).getD 0 "" = "fill_AAAAAA" ∧
    (runIds c1Supply c1Calls).getD 2 "" = "fill_BBBBBB" ∧
    (runIds c1Supply c1Calls).getD 0 "" ≠ (runIds c1Supply c1Calls).getD 2 "" ∧
    ("fill_AAAAAA", (0 : ℕ)) ∈ stylesAfter c1Supply c1Calls 1 ∧
    ("fill_AAAAAA", (0 : ℕ)) ∉ runStyles c1Supply c1Calls := by
  refine ⟨rfl, by decide, by decide, by decide, by decide, by decide⟩


/-- Witness for C1: the three-call sequence under a collision-free
supply. -/
theorem findOrCreateVar_dedup_fresh_witness :
    ("fill_AAAAAA" : String) = "fill_AAAAAA" ∧
    ((runStyles c1wSupply c1Calls).filter (fun p => decide (p.2 = 0))).length = 1 ∧
    stylesAfter c1wSupply c1Calls 0 <+: stylesAfter c1wSupply c1Calls 1 :=
  ⟨(findOrCreateVar_dedup_fresh ℕ c1wSupply c1Calls (by decide)).1
      ((0, "fill"), "fill_AAAAAA") (by decide) ((0, "fill"), "fill_AAAAAA") (by decide) rfl,
   (findOrCreateVar_dedup_fresh ℕ c1wSupply c1Calls (by decide)).2.1 0 (by decide),
   (findOrCreateVar_dedup_fresh ℕ c1wSupply c1Calls (by decide)).2.2 0⟩
